import Mathlib

/-!
Shallow embedding of the reconciliation core of `src/main.ts` (the `syncNow`
method of `CloudSyncPlugin`), together with its per-path classification
tables, conflict handling, deletion propagation and checkpointing.

Modelling conventions:
* Timestamps are `Nat` (epoch milliseconds).  The source stores the remote
  `modifiedTime` as an ISO string and always compares via `Date.parse`; we
  model the parsed value directly, so `remoteMtime : Option Nat` stands for
  the stored ISO string (absent field ↦ `none`, and the source's
  `x ? Date.parse(x) : 0` becomes `Option.getD 0`).
* File bytes are abstracted as a single `Nat` (`content`); the remote
  `md5Checksum` of uploaded bytes is modelled as `some content`.
* The external collaborators (filesystem stat/read/write, Google Drive
  list/upload/download/delete) are deterministic but fallible; an `Env`
  record supplies, per path (or per remote id), whether each call fails and
  which server-assigned values (upload `modifiedTime`, post-write local
  mtime, conflict timestamp token) it produces.  Fresh remote ids are
  `max id + 1`, which is faithful to Drive never reusing a live id during
  a run (uploads precede deletions in `syncNow`).
* JS `Map` iteration visits entries added during iteration (the conflict
  branch does `localFiles.set(conflictPath, …)` mid-loop), and updating an
  existing not-yet-visited key changes the value that will be visited.  The
  upload loop models this with an explicit worklist plus a processed list;
  it is fuelled, and the fuel chosen in `runSync` is enough because a
  conflict (the only spawning branch) needs a pre-existing sync-state entry.
* JS falsiness matters in `!existingMapping.localMtimeEpoch`: both an
  absent field and the value `0` count as "no last known local mtime".
-/

namespace ObSync

/-- Association list lookup, modelling JS `Map.get` / object indexing. -/
def alookup {β : Type} (k : String) : List (String × β) → Option β
  | [] => none
  | (k', v) :: rest => if k = k' then some v else alookup k rest

/-- Association list update, modelling JS `Map.set` / object assignment:
an existing key keeps its position, a new key is appended. -/
def aset {β : Type} (k : String) (v : β) : List (String × β) → List (String × β)
  | [] => [(k, v)]
  | (k', v') :: rest => if k = k' then (k', v) :: rest else (k', v') :: aset k v rest

/-- Association list removal, modelling JS `Map.delete` / `delete obj[k]`. -/
def aerase {β : Type} (k : String) : List (String × β) → List (String × β)
  | [] => []
  | (k', v') :: rest => if k = k' then aerase k rest else (k', v') :: aerase k rest

/-- The key list of an association map (JS `for..in` / `.entries()` order). -/
def akeys {β : Type} (l : List (String × β)) : List String := l.map Prod.fst

/-- A live local file: its filesystem mtime and (abstracted) bytes. -/
structure LocalFile where
  mtime : Nat
  content : Nat
deriving DecidableEq, Repr

/-- A live Google Drive object inside the app folder. -/
structure RemoteObj where
  id : Nat
  name : String
  isFolder : Bool
  modifiedTime : Nat
  md5 : Option Nat
  content : Nat
deriving DecidableEq, Repr

/-- A Drive listing entry: `files(id, name, mimeType, modifiedTime, md5Checksum)`.
`isFolder` stands for `mimeType === 'application/vnd.google-apps.folder'`. -/
structure RemoteEntry where
  id : Nat
  name : String
  isFolder : Bool
  modifiedTime : Nat
  md5 : Option Nat
deriving DecidableEq, Repr

def RemoteObj.toEntry (o : RemoteObj) : RemoteEntry :=
  { id := o.id, name := o.name, isFolder := o.isFolder,
    modifiedTime := o.modifiedTime, md5 := o.md5 }

/-- The `FileSyncState` record of `src/main.ts`: the persisted per-path record in
`settings.fileMap`. -/
structure FileSyncState where
  remoteId : Nat
  remoteMtime : Option Nat
  remoteMd5 : Option Nat
  localMtimeEpoch : Option Nat
deriving DecidableEq, Repr

/-- The two replicas plus the persisted map: the state `syncNow` starts from. -/
structure World where
  localFS : List (String × LocalFile)
  remoteFS : List RemoteObj
  fileMap : List (String × FileSyncState)
deriving DecidableEq, Repr

/-- Deterministic oracle for every fallible or server-assigned value the run
consumes.  `statFails`/`readFails`/`writeOk`/`delLocalOk` model the vault
adapter; `listFails`/`relistFails`/`uploadOk`/`downloadOk`/`delRemoteOk`
model the Drive calls; `uploadMtime` is the server-assigned `modifiedTime`
of an uploaded file, `statAfterWrite` the local mtime the filesystem gives a
freshly written file, and `conflictTs` the sanitized ISO timestamp token the
conflict branch inserts into the backup name. -/
structure Env where
  statFails : String → Bool
  listFails : Bool
  relistFails : String → Bool
  readFails : String → Bool
  writeOk : String → Bool
  uploadOk : String → Bool
  uploadMtime : String → Nat
  downloadOk : String → Bool
  conflictTs : String → String
  statAfterWrite : String → Nat
  delRemoteOk : Nat → Bool
  delLocalOk : String → Bool

/-- Index of the last `'.'` in a character list (JS `path.lastIndexOf('.')`,
with `none` for `-1`). -/
def lastDotIdx : List Char → Option Nat
  | [] => none
  | c :: cs =>
    match lastDotIdx cs with
    | some i => some (i + 1)
    | none => if c = '.' then some 0 else none

/-- The conflict backup name:
`path.substring(0, path.lastIndexOf('.')) + '_local_conflict_' + timestamp
 + path.substring(path.lastIndexOf('.'))`, including the JS behaviour for a
dotless path (`substring(0,-1) = ""`, `substring(-1) = path`). -/
def conflictName (path ts : String) : String :=
  match lastDotIdx path.data with
  | some i => ⟨path.data.take i ++ ("_local_conflict_" ++ ts).data ++ path.data.drop i⟩
  | none => ⟨("_local_conflict_" ++ ts).data ++ path.data⟩

/-- Markdown test used to model `this.app.vault.getMarkdownFiles()`:
the vault files whose extension is `md`. -/
def isMdPath (p : String) : Bool := p.data.reverse.take 3 == ['d', 'm', '.']

/-- Models `file.path.startsWith('.obsidian/')`. -/
def inObsidianDir (p : String) : Bool :=
  p.data.take 10 == ['.', 'o', 'b', 's', 'i', 'd', 'i', 'a', 'n', '/']

/-- The five-way upload-direction decision of the per-local-path branch of
`syncNow` (lines 274–325).  The source encodes `conflict` with operation
string `'skip'` plus the inline backup action; `skipUnchanged` is
"Local file unchanged since last known state", `skipDefer` is
"Local changed, but remote is same or newer". -/
inductive UploadOp
  | uploadNew
  | uploadUpdate
  | conflict
  | skipUnchanged
  | skipDefer
deriving DecidableEq, Repr

/-- Models `!existingMapping.localMtimeEpoch || localFileStat.mtime > existingMapping.localMtimeEpoch`:
JS falsiness makes both an absent field and `0` count as "changed". -/
def localMoved (m : Option Nat) (mtime : Nat) : Bool :=
  decide (m.getD 0 = 0) || decide (m.getD 0 < mtime)

/-- Upload-direction classification (per local path), lines 274–325. -/
def classifyUpload (mapping : Option FileSyncState) (mtime : Nat)
    (remote : Option RemoteEntry) : UploadOp :=
  match mapping with
  | none => .uploadNew
  | some s =>
    if localMoved s.localMtimeEpoch mtime then
      let lastKnown := s.remoteMtime.getD 0
      let cur := (remote.map (·.modifiedTime)).getD 0
      if remote.isSome && decide (lastKnown < cur) then .conflict
      else if cur < mtime then .uploadUpdate
      else .skipDefer
    else .skipUnchanged

/-- The download-direction decision (lines 369–406). -/
inductive DownloadOp
  | downloadNew
  | downloadUpdate
  | skip
deriving DecidableEq, Repr

/-- Download-direction classification (per remote entry), lines 374–406:
both the `remoteMtimeEpoch < localFileStat.mtime` and the equal-timestamps
branch yield `skip`. -/
def classifyDownload (localStat : Option Nat) (mapping : Option FileSyncState)
    (remoteMtime : Nat) : DownloadOp :=
  match localStat with
  | none => .downloadNew
  | some lm =>
    let lastKnown := ((mapping.bind (·.remoteMtime)).getD 0 : Nat)
    if lastKnown < remoteMtime then
      if lm < remoteMtime then .downloadUpdate else .skip
    else .skip

/-- In-flight state of one `syncNow` run: the two live replicas, the
`fileMap`, the two snapshot maps (`localFiles` and `remoteFilesMap`, both
mutated mid-run by the source), and the trace of `saveSettings` checkpoints
(each element is the `fileMap` as persisted at that point). -/
structure RunState where
  localFS : List (String × LocalFile)
  remoteFS : List RemoteObj
  fileMap : List (String × FileSyncState)
  localSnap : List (String × Nat)
  remoteSnap : List (String × RemoteEntry)
  saves : List (List (String × FileSyncState))
deriving DecidableEq, Repr

def RunState.toWorld (st : RunState) : World :=
  { localFS := st.localFS, remoteFS := st.remoteFS, fileMap := st.fileMap }

/-- Models `await this.saveSettings()`: persist the current `fileMap`. -/
def checkpoint (st : RunState) : RunState := { st with saves := st.saves ++ [st.fileMap] }

/-- Next Drive id for a created file (Drive never reuses a live id). -/
def freshId (rfs : List RemoteObj) : Nat := (rfs.map (·.id)).foldr max 0 + 1

/-- Models `uploadGoogleDriveFile`: `PATCH` (metadata incl. `name`, new content,
server-assigned `modifiedTime`) when `existingFileId` is given — failing
like the API does when the id no longer resolves — and `POST` creating a
fresh object otherwise.  Returns the possibly-updated store and the
returned file id (`none` = upload failed / returned no id). -/
def uploadDrive (env : Env) (rfs : List RemoteObj) (p : String) (content : Nat) :
    Option Nat → List RemoteObj × Option Nat
  | some eid =>
    if env.uploadOk p && rfs.any (fun o => o.id == eid) then
      (rfs.map (fun o =>
        if o.id == eid then
          { o with name := p, modifiedTime := env.uploadMtime p,
                   md5 := some content, content := content }
        else o), some eid)
    else (rfs, none)
  | none =>
    if env.uploadOk p then
      (rfs ++ [{ id := freshId rfs, name := p, isFolder := false,
                 modifiedTime := env.uploadMtime p, md5 := some content,
                 content := content }], some (freshId rfs))
    else (rfs, none)

/-- Upload execution (lines 329–360): read the live local bytes, call
`uploadGoogleDriveFile`, and on a returned id resolve `updatedRemoteFile`
as the source does — `remoteFilesMap.get(path)` (the run-start snapshot
entry) or else a fresh listing searched by the returned id — then write
`fileMap[path]` and mirror the entry into `remoteFilesMap`.  A read error
or a null upload result leaves `fileMap` untouched. -/
def execUpload (env : Env) (st : RunState) (p : String) (m : Nat)
    (existingId : Option Nat) : RunState :=
  if env.readFails p then st
  else
    match alookup p st.localFS with
    | none => st
    | some lf =>
      match uploadDrive env st.remoteFS p lf.content existingId with
      | (rfs2, none) => { st with remoteFS := rfs2 }
      | (rfs2, some rid) =>
        let updated : Option RemoteEntry :=
          match alookup p st.remoteSnap with
          | some e => some e
          | none =>
            if env.relistFails p then none
            else (rfs2.find? (fun o => o.id == rid)).map RemoteObj.toEntry
        { st with
          remoteFS := rfs2,
          fileMap := aset p
            { remoteId := rid,
              remoteMtime := updated.map (·.modifiedTime),
              remoteMd5 := (updated.map (·.md5)).getD none,
              localMtimeEpoch := some m } st.fileMap,
          remoteSnap :=
            match updated with
            | some e => aset p e st.remoteSnap
            | none => st.remoteSnap }

/-- One iteration of the per-local-path upload loop.  Returns the new state
and, when the conflict branch successfully wrote a backup, the
`(conflictPath, backup mtime)` pair it `localFiles.set` into the snapshot
(the loop decides how that affects the remaining iteration order).
The conflict branch (lines 284–311) reads the live bytes, writes them to
`conflictName`, stats the fresh file, and never touches `fileMap`. -/
def uploadStep (env : Env) (st : RunState) (p : String) (m : Nat) :
    RunState × Option (String × Nat) :=
  match alookup p st.fileMap, classifyUpload (alookup p st.fileMap) m (alookup p st.remoteSnap) with
  | _, .uploadNew => (execUpload env st p m none, none)
  | some s, .uploadUpdate => (execUpload env st p m (some s.remoteId), none)
  | some _, .conflict =>
    if env.readFails p then (st, none)
    else
      match alookup p st.localFS with
      | none => (st, none)
      | some lf =>
        if (alookup (conflictName p (env.conflictTs p)) st.localFS).isSome
            || !env.writeOk (conflictName p (env.conflictTs p)) then (st, none)
        else
          ({ st with
              localFS := aset (conflictName p (env.conflictTs p))
                { mtime := env.statAfterWrite (conflictName p (env.conflictTs p)),
                  content := lf.content } st.localFS,
              localSnap := aset (conflictName p (env.conflictTs p))
                (env.statAfterWrite (conflictName p (env.conflictTs p))) st.localSnap },
           some (conflictName p (env.conflictTs p),
                 env.statAfterWrite (conflictName p (env.conflictTs p))))
  | _, _ => (st, none)

/-- The upload pass: iterate the `localFiles` map in JS `Map` iteration
order.  A key set mid-iteration is appended (and will be visited) unless it
was already visited, in which case only its stored value changes. -/
def uploadLoop (env : Env) : Nat → List String → List (String × Nat) → RunState → RunState
  | 0, _, _, st => st
  | _ + 1, _, [], st => st
  | fuel + 1, processed, (p, m) :: rest, st =>
    match uploadStep env st p m with
    | (st2, none) => uploadLoop env fuel (p :: processed) rest st2
    | (st2, some (q, b)) =>
      if q ∈ processed ∨ q = p then uploadLoop env fuel (p :: processed) rest st2
      else if q ∈ akeys rest then uploadLoop env fuel (p :: processed) (aset q b rest) st2
      else uploadLoop env fuel (p :: processed) (rest ++ [(q, b)]) st2

/-- Download execution for one remote entry (lines 365–448): classify, then
download by the entry's id from the live store, write locally
(`createBinary` for new — which throws if the path already exists —,
`modifyBinary` for update with a `createBinary` fallback when the live file
vanished), re-stat, and record
`{remoteId, remoteMtime: entry.modifiedTime, remoteMd5, localMtimeEpoch}`.
Any failure leaves both replicas' entry and `fileMap` untouched. -/
def downloadStep (env : Env) (st : RunState) (p : String) (e : RemoteEntry) : RunState :=
  match classifyDownload (alookup p st.localSnap) (alookup p st.fileMap) e.modifiedTime with
  | .skip => st
  | op =>
    match (if env.downloadOk p then
             (st.remoteFS.find? (fun o => o.id == e.id)).map (·.content)
           else none) with
    | none => st
    | some content =>
      -- the three write branches of the source (`createBinary` for new — which
      -- throws if the live path already exists —, `modifyBinary` for update,
      -- `createBinary` fallback when the live file vanished) perform the same
      -- whole-file write on success and fall through to `catch` on failure
      if (match op, alookup p st.localFS with
          | .downloadNew, some _ => false
          | _, _ => env.writeOk p) then
        { st with
          localFS := aset p { mtime := env.statAfterWrite p, content := content } st.localFS,
          fileMap := aset p
            { remoteId := e.id, remoteMtime := some e.modifiedTime,
              remoteMd5 := e.md5, localMtimeEpoch := some (env.statAfterWrite p) }
            st.fileMap }
      else st

/-- The download pass: iterate `remoteFilesMap.entries()` (the snapshot as
it stands after the upload pass; download steps do not mutate it). -/
def downloadPass (env : Env) (st : RunState) : RunState :=
  st.remoteSnap.foldl (fun s pe => downloadStep env s pe.1 pe.2) st

/-- One step of deletion Part 1 (lines 454–472): a `fileMap` key absent
from the `localFiles` snapshot triggers `deleteGoogleDriveFile(remoteId)`;
on success the remote object and the map entry go, on failure (API `false`
or a thrown error, including an id that no longer resolves) both stay. -/
def localDelStep (env : Env) (st : RunState) (p : String) : RunState :=
  if (alookup p st.localSnap).isSome then st
  else
    match alookup p st.fileMap with
    | none => st
    | some s =>
      if env.delRemoteOk s.remoteId && st.remoteFS.any (fun o => o.id == s.remoteId) then
        { st with
          remoteFS := st.remoteFS.filter (fun o => !(o.id == s.remoteId)),
          fileMap := aerase p st.fileMap }
      else st

/-- Deletion Part 1 over the `fileMap` keys as the pass starts. -/
def localDelPass (env : Env) (st : RunState) : RunState :=
  (akeys st.fileMap).foldl (localDelStep env) st

/-- One step of deletion Part 2 (lines 479–502): a `fileMap` key absent
from `remoteFilesMap` has its live local file deleted if it still exists
(`getAbstractFileByPath`); a failed local delete `continue`s keeping entry
and file, otherwise the entry is removed whether or not a file existed. -/
def remoteDelStep (env : Env) (st : RunState) (p : String) : RunState :=
  if (alookup p st.remoteSnap).isSome then st
  else
    match alookup p st.fileMap with
    | none => st
    | some _ =>
      match alookup p st.localFS with
      | some _ =>
        if env.delLocalOk p then
          { st with localFS := aerase p st.localFS, fileMap := aerase p st.fileMap }
        else st
      | none => { st with fileMap := aerase p st.fileMap }

/-- Deletion Part 2 over the `fileMap` keys as the pass starts. -/
def remoteDelPass (env : Env) (st : RunState) : RunState :=
  (akeys st.fileMap).foldl (remoteDelStep env) st

/-- Snapshot collection, local side (lines 216–236): markdown files only,
paths under `.obsidian/` skipped, and a path whose `stat` errors is logged
and left out of the snapshot. -/
def collectLocalSnap (env : Env) (lfs : List (String × LocalFile)) : List (String × Nat) :=
  (lfs.filter (fun pf =>
      isMdPath pf.1 && !inObsidianDir pf.1 && !env.statFails pf.1)).map
    (fun pf => (pf.1, pf.2.mtime))

/-- Snapshot collection, remote side (lines 243–256): `listGoogleDriveFiles`
returns `[]` when the listing errors; folders are filtered out and the rest
keyed by `driveFile.name`. -/
def collectRemoteSnap (env : Env) (rfs : List RemoteObj) : List (String × RemoteEntry) :=
  if env.listFails then []
  else rfs.foldl (fun m o => if o.isFolder then m else aset o.name o.toEntry m) []

/-- The state at the start of a run: fresh snapshots, no checkpoints yet. -/
def initState (env : Env) (w : World) : RunState :=
  { localFS := w.localFS, remoteFS := w.remoteFS, fileMap := w.fileMap,
    localSnap := collectLocalSnap env w.localFS,
    remoteSnap := collectRemoteSnap env w.remoteFS,
    saves := [] }

/-- The upload phase of `syncNow`.  The fuel covers the initial snapshot
plus one spawned conflict backup per pre-existing `fileMap` entry (a
conflict requires a sync-state entry for the conflicting path, so no run
can process more paths than that). -/
def uploadPhase (env : Env) (w : World) : RunState :=
  let st0 := initState env w
  uploadLoop env (st0.localSnap.length + st0.fileMap.length + 1) [] st0.localSnap st0

/-- The body of `syncNow` (lines 183–508): upload pass, checkpoint (line 362), download
pass, checkpoint (line 449), deletion Part 1, checkpoint (line 473),
deletion Part 2 — and then the run returns with no further checkpoint. -/
def runSync (env : Env) (w : World) : RunState :=
  remoteDelPass env (checkpoint (localDelPass env (checkpoint (downloadPass env
    (checkpoint (uploadPhase env w))))))

/-- The plan a run would compute on `w` is empty: every local path
classifies as one of the two no-action skips (not conflict, which performs
the backup action), every remote entry classifies as `skip`, and neither
deletion pass finds a `fileMap` key absent from its snapshot. -/
def planIsEmpty (env : Env) (w : World) : Bool :=
  let ls := collectLocalSnap env w.localFS
  let rs := collectRemoteSnap env w.remoteFS
  (ls.all fun pm =>
    match classifyUpload (alookup pm.1 w.fileMap) pm.2 (alookup pm.1 rs) with
    | .skipUnchanged => true
    | .skipDefer => true
    | _ => false) &&
  (rs.all fun pe =>
    classifyDownload (alookup pe.1 ls) (alookup pe.1 w.fileMap) pe.2.modifiedTime == .skip) &&
  ((akeys w.fileMap).all fun p => (alookup p ls).isSome) &&
  ((akeys w.fileMap).all fun p => (alookup p rs).isSome)

/-! ### Concrete environments and worlds used by the claim theorems -/

/-- An environment in which every external call succeeds; the Drive server
assigns `modifiedTime` 100 to uploads, the filesystem assigns mtime 50 to
fresh writes, and the conflict timestamp token is `"T"`. -/
def envOk : Env :=
  { statFails := fun _ => false
    listFails := false
    relistFails := fun _ => false
    readFails := fun _ => false
    writeOk := fun _ => true
    uploadOk := fun _ => true
    uploadMtime := fun _ => 100
    downloadOk := fun _ => true
    conflictTs := fun _ => "T"
    statAfterWrite := fun _ => 50
    delRemoteOk := fun _ => true
    delLocalOk := fun _ => true }

/-- All-success environment whose post-write stat differs per path (50 for
`n.md`, 60 for everything else, e.g. the conflict backup). -/
def envSplitStat : Env :=
  { envOk with statAfterWrite := (fun q => if q = "n.md" then 50 else 60) }

/-- All-success environment except that `stat` fails for `a.md` (a transient
I/O error during local snapshot collection). -/
def envStatErr : Env :=
  { envOk with statFails := (fun q => q = "a.md") }

/-- The conflict-claim family of worlds: one file `p`, present on both sides
and in the sync state, with agreement point `T0`, local mtime `T1`, remote
`modifiedTime` `T2`, local content `a`, remote content `b`, remote id `r`. -/
def conflictWorld (p : String) (T0 T1 T2 a b r : Nat) : World :=
  { localFS := [(p, { mtime := T1, content := a })],
    remoteFS := [{ id := r, name := p, isFolder := false, modifiedTime := T2,
                   md5 := some b, content := b }],
    fileMap := [(p, { remoteId := r, remoteMtime := some T0, remoteMd5 := some b,
                      localMtimeEpoch := some T0 })] }

/-- Expected run-start state of a run on `conflictWorld`. -/
def cwInit (_env : Env) (p : String) (T0 T1 T2 a b r : Nat) : RunState :=
  { localFS := [(p, { mtime := T1, content := a })],
    remoteFS := [{ id := r, name := p, isFolder := false, modifiedTime := T2,
                   md5 := some b, content := b }],
    fileMap := [(p, { remoteId := r, remoteMtime := some T0, remoteMd5 := some b,
                      localMtimeEpoch := some T0 })],
    localSnap := [(p, T1)],
    remoteSnap := [(p, { id := r, name := p, isFolder := false, modifiedTime := T2,
                         md5 := some b })],
    saves := [] }

/-- Expected state on `conflictWorld` after the conflict branch wrote the
local bytes of `p` to the backup path. -/
def cwBackedUp (env : Env) (p : String) (T0 T1 T2 a b r : Nat) : RunState :=
  { cwInit env p T0 T1 T2 a b r with
    localFS := [(p, { mtime := T1, content := a }),
      (conflictName p (env.conflictTs p),
        { mtime := env.statAfterWrite (conflictName p (env.conflictTs p)), content := a })],
    localSnap := [(p, T1),
      (conflictName p (env.conflictTs p),
        env.statAfterWrite (conflictName p (env.conflictTs p)))] }

/-- Expected state on `conflictWorld` after the upload pass: the backup file
has additionally been uploaded to Drive as a new object with the fresh id
`r + 1` and recorded in the sync state. -/
def cwUploaded (env : Env) (p : String) (T0 T1 T2 a b r : Nat) : RunState :=
  { cwBackedUp env p T0 T1 T2 a b r with
    remoteFS := [{ id := r, name := p, isFolder := false, modifiedTime := T2,
                   md5 := some b, content := b },
                 { id := r + 1, name := conflictName p (env.conflictTs p),
                   isFolder := false,
                   modifiedTime := env.uploadMtime (conflictName p (env.conflictTs p)),
                   md5 := some a, content := a }],
    fileMap := [(p, { remoteId := r, remoteMtime := some T0, remoteMd5 := some b,
                      localMtimeEpoch := some T0 }),
                (conflictName p (env.conflictTs p),
                  { remoteId := r + 1,
                    remoteMtime := some (env.uploadMtime (conflictName p (env.conflictTs p))),
                    remoteMd5 := some a,
                    localMtimeEpoch :=
                      some (env.statAfterWrite (conflictName p (env.conflictTs p))) })],
    remoteSnap := [(p, { id := r, name := p, isFolder := false, modifiedTime := T2,
                         md5 := some b }),
                   (conflictName p (env.conflictTs p),
                     { id := r + 1, name := conflictName p (env.conflictTs p),
                       isFolder := false,
                       modifiedTime :=
                         env.uploadMtime (conflictName p (env.conflictTs p)),
                       md5 := some a })] }

/-- Expected state on `conflictWorld` after the download pass (run when
`T2 > T1`): the remote content `b` has overwritten `p` and the sync state
records the remote `modifiedTime` `T2`; the first checkpoint's save is in
the trace. -/
def cwDownloaded (env : Env) (p : String) (T0 T1 T2 a b r : Nat) : RunState :=
  { cwUploaded env p T0 T1 T2 a b r with
    localFS := [(p, { mtime := env.statAfterWrite p, content := b }),
      (conflictName p (env.conflictTs p),
        { mtime := env.statAfterWrite (conflictName p (env.conflictTs p)), content := a })],
    fileMap := [(p, { remoteId := r, remoteMtime := some T2, remoteMd5 := some b,
                      localMtimeEpoch := some (env.statAfterWrite p) }),
                (conflictName p (env.conflictTs p),
                  { remoteId := r + 1,
                    remoteMtime := some (env.uploadMtime (conflictName p (env.conflictTs p))),
                    remoteMd5 := some a,
                    localMtimeEpoch :=
                      some (env.statAfterWrite (conflictName p (env.conflictTs p))) })],
    saves := [(cwUploaded env p T0 T1 T2 a b r).fileMap] }

/-- World for the stale-upload-metadata scenario: `n.md` changed locally
(mtime 5 against recorded 4) while the remote copy is unchanged at its
recorded `modifiedTime` 3, so the run performs `upload_update`. -/
def wStale : World :=
  { localFS := [("n.md", { mtime := 5, content := 7 })],
    remoteFS := [{ id := 1, name := "n.md", isFolder := false, modifiedTime := 3,
                   md5 := some 9, content := 9 }],
    fileMap := [("n.md", { remoteId := 1, remoteMtime := some 3, remoteMd5 := some 9,
                           localMtimeEpoch := some 4 })] }

/-- World for the stat-error scenario: `a.md` exists on both sides, fully
synchronized (local mtime 5 = recorded, remote mtime 3 = recorded). -/
def wStatErr : World :=
  { localFS := [("a.md", { mtime := 5, content := 1 })],
    remoteFS := [{ id := 1, name := "a.md", isFolder := false, modifiedTime := 3,
                   md5 := some 9, content := 9 }],
    fileMap := [("a.md", { remoteId := 1, remoteMtime := some 3, remoteMd5 := some 9,
                           localMtimeEpoch := some 5 })] }

/-- World in which `g.md` was deleted remotely: it is still present locally
and in the sync state, but the remote store is empty. -/
def wRemoteGone : World :=
  { localFS := [("g.md", { mtime := 5, content := 1 })],
    remoteFS := [],
    fileMap := [("g.md", { remoteId := 4, remoteMtime := some 3, remoteMd5 := none,
                           localMtimeEpoch := some 5 })] }

/-- Mid-run state for the deletion-pass and tie-rule witnesses: `d.md` was
deleted locally (absent from the local snapshot) while `t.md` is fully
synchronized on both sides. -/
def stDel : RunState :=
  { localFS := [("t.md", { mtime := 7, content := 1 })],
    remoteFS := [{ id := 3, name := "d.md", isFolder := false, modifiedTime := 2,
                   md5 := none, content := 4 },
                 { id := 1, name := "t.md", isFolder := false, modifiedTime := 9,
                   md5 := none, content := 1 }],
    fileMap := [("d.md", { remoteId := 3, remoteMtime := some 2, remoteMd5 := none,
                           localMtimeEpoch := some 6 }),
                ("t.md", { remoteId := 1, remoteMtime := some 9, remoteMd5 := none,
                           localMtimeEpoch := some 7 })],
    localSnap := [("t.md", 7)],
    remoteSnap := [("d.md", { id := 3, name := "d.md", isFolder := false,
                              modifiedTime := 2, md5 := none }),
                   ("t.md", { id := 1, name := "t.md", isFolder := false,
                              modifiedTime := 9, md5 := none })],
    saves := [] }

/-- The sync-state record of `d.md` in `stDel`. -/
def sDel : FileSyncState :=
  { remoteId := 3, remoteMtime := some 2, remoteMd5 := none, localMtimeEpoch := some 6 }

/-- The sync-state record of `t.md` in `stDel`. -/
def sTie : FileSyncState :=
  { remoteId := 1, remoteMtime := some 9, remoteMd5 := none, localMtimeEpoch := some 7 }

/-- The remote listing entry of `t.md` in `stDel`. -/
def eTie : RemoteEntry :=
  { id := 1, name := "t.md", isFolder := false, modifiedTime := 9, md5 := none }

/-- A sync-state record whose `localMtimeEpoch` is the falsy zero. -/
def sZero : FileSyncState :=
  { remoteId := 1, remoteMtime := some 5, remoteMd5 := none, localMtimeEpoch := some 0 }

/-- A remote listing entry matching `sZero`'s recorded remote mtime. -/
def eZero : RemoteEntry :=
  { id := 1, name := "n.md", isFolder := false, modifiedTime := 5, md5 := none }

/-- World with one markdown and one non-markdown local file. -/
def wMix : World :=
  { localFS := [("a.md", { mtime := 1, content := 1 }), ("img.png", { mtime := 2, content := 2 })],
    remoteFS := [],
    fileMap := [] }

/-! ### Association map lemmas -/

theorem alookup_aset_self {β : Type} (k : String) (v : β) (l : List (String × β)) :
    alookup k (aset k v l) = some v := by
  induction l with
  | nil => simp [aset, alookup]
  | cons hd tl ih =>
    obtain ⟨k', v'⟩ := hd
    by_cases hk : k = k'
    · simp [aset, hk, alookup]
    · simp [aset, hk, alookup, ih]

theorem alookup_aset_ne {β : Type} {q k : String} (h : q ≠ k) (v : β)
    (l : List (String × β)) : alookup q (aset k v l) = alookup q l := by
  induction l with
  | nil => simp [aset, alookup, h]
  | cons hd tl ih =>
    obtain ⟨k', v'⟩ := hd
    by_cases hk : k = k'
    · subst hk
      simp [aset, alookup, h]
    · by_cases hq : q = k'
      · simp [aset, hk, alookup, hq]
      · simp [aset, hk, alookup, hq, ih]

theorem alookup_aerase_self {β : Type} (k : String) (l : List (String × β)) :
    alookup k (aerase k l) = none := by
  induction l with
  | nil => simp [aerase, alookup]
  | cons hd tl ih =>
    obtain ⟨k', v'⟩ := hd
    by_cases hk : k = k'
    · subst hk
      simpa [aerase] using ih
    · simp [aerase, hk, alookup, ih]

theorem alookup_aerase_ne {β : Type} {q k : String} (h : q ≠ k) (l : List (String × β)) :
    alookup q (aerase k l) = alookup q l := by
  induction l with
  | nil => simp [aerase]
  | cons hd tl ih =>
    obtain ⟨k', v'⟩ := hd
    by_cases hk : k = k'
    · subst hk
      simp [aerase, alookup, h, ih]
    · by_cases hq : q = k'
      · simp [aerase, hk, alookup, hq]
      · simp [aerase, hk, alookup, hq, ih]

theorem mem_akeys_of_alookup {β : Type} {p : String} {s : β} {l : List (String × β)}
    (h : alookup p l = some s) : p ∈ akeys l := by
  induction l with
  | nil => simp [alookup] at h
  | cons hd tl ih =>
    obtain ⟨k', v'⟩ := hd
    by_cases hk : p = k'
    · simp [akeys, hk]
    · simp [alookup, hk] at h
      simp [akeys] at ih ⊢
      exact Or.inr (ih h)

theorem alookup_of_aerase {β : Type} {q k : String} {t : β} {l : List (String × β)}
    (h : alookup q (aerase k l) = some t) : alookup q l = some t := by
  by_cases hk : q = k
  · subst hk
    rw [alookup_aerase_self] at h
    exact absurd h (by simp)
  · rwa [alookup_aerase_ne hk] at h

theorem mem_aset {β : Type} {pm : String × β} {k : String} {v : β} {l : List (String × β)}
    (h : pm ∈ aset k v l) : pm.1 = k ∨ pm ∈ l := by
  induction l with
  | nil =>
    simp [aset] at h
    subst h
    exact Or.inl rfl
  | cons hd tl ih =>
    obtain ⟨k', v'⟩ := hd
    by_cases hk : k = k'
    · subst hk
      simp [aset] at h
      rcases h with h | h
      · subst h
        exact Or.inl rfl
      · exact Or.inr (List.mem_cons_of_mem _ h)
    · simp [aset, hk] at h
      rcases h with h | h
      · subst h
        exact Or.inr (List.mem_cons_self _ _)
      · rcases ih h with h' | h'
        · exact Or.inl h'
        · exact Or.inr (List.mem_cons_of_mem _ h')

/-! ### Remote store list lemmas -/

theorem any_id_filter {l : List RemoteObj} {i j : Nat} (h : i ≠ j) :
    (l.filter (fun o => !(o.id == j))).any (fun o => o.id == i) =
      l.any (fun o => o.id == i) := by
  induction l with
  | nil => rfl
  | cons o tl ih =>
    cases hb : (o.id == j) with
    | true =>
      have hj : o.id = j := beq_iff_eq.mp hb
      have hi : (o.id == i) = false := beq_eq_false_iff_ne.mpr (by rw [hj]; exact Ne.symm h)
      simp only [List.filter_cons, List.any_cons, hb, Bool.not_true, if_false, hi,
        Bool.false_or]
      exact ih
    | false =>
      simp only [List.filter_cons, List.any_cons, hb, Bool.not_false, if_true, ih]

theorem any_filter_eq_false {l : List RemoteObj} {f g : RemoteObj → Bool}
    (h : l.any g = false) : (l.filter f).any g = false := by
  induction l with
  | nil => rfl
  | cons o tl ih =>
    have hgo : g o = false := by
      cases hg : g o
      · rfl
      · rw [List.any_cons, hg, Bool.true_or] at h
        exact h
    have htl : tl.any g = false := by
      rw [List.any_cons, hgo, Bool.false_or] at h
      exact h
    cases hf : f o
    · simp only [List.filter_cons, hf, if_false]
      exact ih htl
    · simp only [List.filter_cons, hf, if_true, List.any_cons, hgo, Bool.false_or]
      exact ih htl

/-! ### Conflict path lemmas -/

theorem conflictName_length (p ts : String) :
    (conflictName p ts).length = p.length + (16 + ts.length) := by
  have hmid : ("_local_conflict_" ++ ts).data.length = 16 + ts.data.length := by
    rw [String.data_append, List.length_append,
      show ("_local_conflict_" : String).data.length = 16 from rfl]
  unfold conflictName
  cases h : lastDotIdx p.data with
  | some i =>
    show (p.data.take i ++ ("_local_conflict_" ++ ts).data ++ p.data.drop i).length
        = p.data.length + (16 + ts.data.length)
    have h1 : (p.data.take i).length + (p.data.drop i).length = p.data.length := by
      rw [← List.length_append, List.take_append_drop]
    rw [List.length_append, List.length_append, hmid]
    omega
  | none =>
    show (("_local_conflict_" ++ ts).data ++ p.data).length = p.data.length + (16 + ts.data.length)
    rw [List.length_append, hmid]
    omega

theorem conflictName_ne (p ts : String) : conflictName p ts ≠ p := by
  intro h
  have := congrArg String.length h
  rw [conflictName_length] at this
  omega

theorem lastDotIdx_append_md (l : List Char) :
    lastDotIdx (l ++ ['.', 'm', 'd']) = some l.length := by
  induction l with
  | nil => rfl
  | cons c cs ih => simp [lastDotIdx, ih]

theorem isMdPath_of_append (l : List Char) : isMdPath ⟨l ++ ['.', 'm', 'd']⟩ = true := by
  show ((l ++ ['.', 'm', 'd']).reverse.take 3 == ['d', 'm', '.']) = true
  rw [List.reverse_append]
  rw [show (['.', 'm', 'd'].reverse : List Char) = ['d', 'm', '.'] from rfl]
  rw [show (3 : Nat) = (['d', 'm', '.'] : List Char).length from rfl, List.take_left]
  simp

theorem exists_of_isMdPath {p : String} (h : isMdPath p = true) :
    ∃ l, p.data = l ++ ['.', 'm', 'd'] := by
  have h3 : p.data.reverse.take 3 = ['d', 'm', '.'] := by
    have := h
    unfold isMdPath at this
    exact eq_of_beq this
  refine ⟨(p.data.reverse.drop 3).reverse, ?_⟩
  have hsplit : p.data.reverse = ['d', 'm', '.'] ++ p.data.reverse.drop 3 := by
    conv_lhs => rw [← List.take_append_drop 3 p.data.reverse]
    rw [h3]
  have := congrArg List.reverse hsplit
  rw [List.reverse_reverse, List.reverse_append] at this
  simpa using this

theorem isMdPath_conflictName {p : String} (ts : String) (h : isMdPath p = true) :
    isMdPath (conflictName p ts) = true := by
  obtain ⟨l, hl⟩ := exists_of_isMdPath h
  unfold conflictName
  simp only [hl, lastDotIdx_append_md]
  rw [show (l ++ ['.', 'm', 'd']).take l.length = l from List.take_left l _]
  rw [show (l ++ ['.', 'm', 'd']).drop l.length = ['.', 'm', 'd'] from List.drop_left l _]
  exact isMdPath_of_append _

/-! ### Frame lemmas: state components each step leaves untouched -/

theorem execUpload_frame (env : Env) (st : RunState) (p : String) (m : Nat)
    (eid : Option Nat) :
    (execUpload env st p m eid).localFS = st.localFS ∧
    (execUpload env st p m eid).localSnap = st.localSnap ∧
    (execUpload env st p m eid).saves = st.saves := by
  unfold execUpload
  repeat' split
  all_goals exact ⟨rfl, rfl, rfl⟩

theorem execUpload_fileMap_ne (env : Env) (st : RunState) (p : String) (m : Nat)
    (eid : Option Nat) {q : String} (hq : q ≠ p) :
    alookup q (execUpload env st p m eid).fileMap = alookup q st.fileMap := by
  unfold execUpload
  repeat' split
  all_goals first
    | rfl
    | exact alookup_aset_ne hq _ _

theorem uploadDrive_of_uploadOk_false (env : Env) (rfs : List RemoteObj) (p : String)
    (c : Nat) (eid : Option Nat) (h : env.uploadOk p = false) :
    uploadDrive env rfs p c eid = (rfs, none) := by
  cases eid <;> simp [uploadDrive, h]

theorem execUpload_fileMap_fail (env : Env) (st : RunState) (p : String) (m : Nat)
    (eid : Option Nat) (h : env.readFails p = true ∨ env.uploadOk p = false) :
    (execUpload env st p m eid).fileMap = st.fileMap := by
  unfold execUpload
  rcases h with h | h
  · rw [if_pos h]
  · cases hr : env.readFails p
    · simp only [Bool.false_eq_true, if_false, uploadDrive_of_uploadOk_false, h]
      cases alookup p st.localFS <;> rfl
    · simp

theorem uploadStep_saves (env : Env) (st : RunState) (p : String) (m : Nat) :
    (uploadStep env st p m).1.saves = st.saves := by
  unfold uploadStep
  repeat' split
  all_goals first
    | rfl
    | exact (execUpload_frame env st p m _).2.2

theorem uploadStep_fileMap_ne (env : Env) (st : RunState) (p : String) (m : Nat)
    {q : String} (hq : q ≠ p) :
    alookup q (uploadStep env st p m).1.fileMap = alookup q st.fileMap := by
  unfold uploadStep
  repeat' split
  all_goals first
    | rfl
    | exact execUpload_fileMap_ne env st p m _ hq

theorem uploadStep_fileMap_fail (env : Env) (st : RunState) (p : String) (m : Nat)
    (h : env.readFails p = true ∨ env.uploadOk p = false) :
    (uploadStep env st p m).1.fileMap = st.fileMap := by
  unfold uploadStep
  repeat' split
  all_goals first
    | rfl
    | exact execUpload_fileMap_fail env st p m _ h

theorem uploadStep_spawn (env : Env) (st : RunState) (p : String) (m : Nat)
    {q : String} {b : Nat} (h : (uploadStep env st p m).2 = some (q, b)) :
    q = conflictName p (env.conflictTs p) := by
  unfold uploadStep at h
  repeat' split at h
  all_goals first
    | exact Option.noConfusion h
    | (injection h with h2
       exact (congrArg Prod.fst h2).symm)

theorem uploadDrive_mem (env : Env) (rfs : List RemoteObj) (p : String) (c : Nat)
    (eid : Option Nat) {o : RemoteObj} (h : o ∈ (uploadDrive env rfs p c eid).1) :
    o ∈ rfs ∨ o.name = p := by
  unfold uploadDrive at h
  repeat' split at h
  all_goals dsimp only [] at h
  all_goals first
    | exact Or.inl h
    | (simp only [List.mem_map] at h
       obtain ⟨o', ho', heq⟩ := h
       split at heq
       · exact Or.inr (by rw [← heq])
       · exact Or.inl (heq ▸ ho'))
    | (rcases List.mem_append.mp h with h' | h'
       · exact Or.inl h'
       · simp at h'
         exact Or.inr (by rw [h']))

theorem execUpload_remote_mem (env : Env) (st : RunState) (p : String) (m : Nat)
    (eid : Option Nat) {o : RemoteObj} (h : o ∈ (execUpload env st p m eid).remoteFS) :
    o ∈ st.remoteFS ∨ o.name = p := by
  unfold execUpload at h
  split at h
  · exact Or.inl h
  · split at h
    · exact Or.inl h
    · split at h
      · rename_i rfs2 heq
        exact uploadDrive_mem env st.remoteFS p _ eid (by rw [heq]; exact h)
      · rename_i rfs2 rid heq
        exact uploadDrive_mem env st.remoteFS p _ eid (by rw [heq]; exact h)

theorem uploadStep_remote_mem (env : Env) (st : RunState) (p : String) (m : Nat)
    {o : RemoteObj} (h : o ∈ (uploadStep env st p m).1.remoteFS) :
    o ∈ st.remoteFS ∨ o.name = p := by
  unfold uploadStep at h
  repeat' split at h
  all_goals first
    | exact Or.inl h
    | exact execUpload_remote_mem env st p m _ h

theorem downloadStep_frame (env : Env) (st : RunState) (p : String) (e : RemoteEntry) :
    (downloadStep env st p e).remoteFS = st.remoteFS ∧
    (downloadStep env st p e).remoteSnap = st.remoteSnap ∧
    (downloadStep env st p e).localSnap = st.localSnap ∧
    (downloadStep env st p e).saves = st.saves := by
  unfold downloadStep
  repeat' split
  all_goals exact ⟨rfl, rfl, rfl, rfl⟩

theorem downloadStep_lookup_ne (env : Env) (st : RunState) (p : String) (e : RemoteEntry)
    {q : String} (hq : q ≠ p) :
    alookup q (downloadStep env st p e).fileMap = alookup q st.fileMap ∧
    alookup q (downloadStep env st p e).localFS = alookup q st.localFS := by
  unfold downloadStep
  repeat' split
  all_goals first
    | exact ⟨rfl, rfl⟩
    | exact ⟨alookup_aset_ne hq _ _, alookup_aset_ne hq _ _⟩

theorem downloadStep_fail (env : Env) (st : RunState) (p : String) (e : RemoteEntry)
    (h : env.downloadOk p = false ∨ env.writeOk p = false) :
    downloadStep env st p e = st := by
  unfold downloadStep
  rcases h with h | h
  · split
    · rfl
    · simp [h]
  · split
    · rfl
    · split
      · rfl
      · split
        · rename_i hsome
          exfalso
          repeat' split at hsome
          all_goals first
            | exact Bool.noConfusion hsome
            | (rw [h] at hsome
               exact Bool.noConfusion hsome)
        · rfl

theorem localDelStep_frame (env : Env) (st : RunState) (k : String) :
    (localDelStep env st k).localFS = st.localFS ∧
    (localDelStep env st k).localSnap = st.localSnap ∧
    (localDelStep env st k).remoteSnap = st.remoteSnap ∧
    (localDelStep env st k).saves = st.saves := by
  unfold localDelStep
  repeat' split
  all_goals exact ⟨rfl, rfl, rfl, rfl⟩

theorem localDelStep_lookup_ne (env : Env) (st : RunState) (k : String)
    {q : String} (hq : q ≠ k) :
    alookup q (localDelStep env st k).fileMap = alookup q st.fileMap := by
  unfold localDelStep
  repeat' split
  all_goals first
    | rfl
    | exact alookup_aerase_ne hq _

theorem localDelStep_of_insnap (env : Env) (st : RunState) (k : String)
    (h : (alookup k st.localSnap).isSome = true) :
    localDelStep env st k = st := by
  unfold localDelStep
  rw [if_pos h]

theorem remoteDelStep_frame (env : Env) (st : RunState) (k : String) :
    (remoteDelStep env st k).remoteFS = st.remoteFS ∧
    (remoteDelStep env st k).localSnap = st.localSnap ∧
    (remoteDelStep env st k).remoteSnap = st.remoteSnap ∧
    (remoteDelStep env st k).saves = st.saves := by
  unfold remoteDelStep
  repeat' split
  all_goals exact ⟨rfl, rfl, rfl, rfl⟩

theorem remoteDelStep_lookup_ne (env : Env) (st : RunState) (k : String)
    {q : String} (hq : q ≠ k) :
    alookup q (remoteDelStep env st k).fileMap = alookup q st.fileMap ∧
    alookup q (remoteDelStep env st k).localFS = alookup q st.localFS := by
  unfold remoteDelStep
  repeat' split
  all_goals first
    | exact ⟨rfl, rfl⟩
    | (dsimp only []
       exact ⟨alookup_aerase_ne hq _, alookup_aerase_ne hq _⟩)
    | (dsimp only []
       exact ⟨alookup_aerase_ne hq _, rfl⟩)

theorem remoteDelStep_of_insnap (env : Env) (st : RunState) (k : String)
    (h : (alookup k st.remoteSnap).isSome = true) :
    remoteDelStep env st k = st := by
  unfold remoteDelStep
  rw [if_pos h]

theorem foldl_preserve {α β γ : Type} (g : α → γ) (f : α → β → α)
    (h : ∀ a b, g (f a b) = g a) : ∀ (l : List β) (a : α), g (l.foldl f a) = g a := by
  intro l
  induction l with
  | nil => intro a; rfl
  | cons b tl ih =>
    intro a
    rw [List.foldl_cons, ih, h]

/-! ### Deletion Part 1: fold-level lemmas -/

theorem alookup_aerase_of_none {β : Type} {q k : String} {l : List (String × β)}
    (h : alookup q l = none) : alookup q (aerase k l) = none := by
  by_cases hk : q = k
  · subst hk
    exact alookup_aerase_self q l
  · rw [alookup_aerase_ne hk]
    exact h

theorem any_filter_self (rid : Nat) (l : List RemoteObj) :
    (l.filter (fun o => !(o.id == rid))).any (fun o => o.id == rid) = false := by
  induction l with
  | nil => rfl
  | cons o tl ih =>
    cases hb : (o.id == rid)
    · simp only [List.filter_cons, hb, Bool.not_false, if_true, List.any_cons, hb,
        Bool.false_or]
      exact ih
    · simp only [List.filter_cons, hb, Bool.not_true, if_false]
      exact ih

theorem localDelStep_lookup_none (env : Env) (st : RunState) (k : String)
    {p : String} (h : alookup p st.fileMap = none) :
    alookup p (localDelStep env st k).fileMap = none := by
  unfold localDelStep
  repeat' split
  all_goals first
    | exact h
    | (dsimp only []
       exact alookup_aerase_of_none h)

theorem localDelStep_lookup_sub (env : Env) (st : RunState) (k : String)
    {q : String} {t : FileSyncState}
    (h : alookup q (localDelStep env st k).fileMap = some t) :
    alookup q st.fileMap = some t := by
  unfold localDelStep at h
  repeat' split at h
  all_goals first
    | exact h
    | (dsimp only [] at h
       exact alookup_of_aerase h)

theorem localDelStep_any_false (env : Env) (st : RunState) (k : String)
    {g : RemoteObj → Bool} (h : st.remoteFS.any g = false) :
    (localDelStep env st k).remoteFS.any g = false := by
  unfold localDelStep
  repeat' split
  all_goals first
    | exact h
    | (dsimp only []
       exact any_filter_eq_false h)

theorem localDelStep_any_preserve (env : Env) (st : RunState) (k : String) (rid : Nat)
    (huniq : ∀ t, alookup k st.fileMap = some t → t.remoteId ≠ rid) :
    (localDelStep env st k).remoteFS.any (fun o => o.id == rid) =
      st.remoteFS.any (fun o => o.id == rid) := by
  unfold localDelStep
  repeat' split
  all_goals first
    | rfl
    | (rename_i t heq hcond
       dsimp only []
       exact any_id_filter (fun he => huniq t heq he.symm))

theorem localDelStep_keep (env : Env) (st : RunState) (p : String) (s : FileSyncState)
    (h1 : alookup p st.fileMap = some s)
    (h2 : env.delRemoteOk s.remoteId = false ∨
      st.remoteFS.any (fun o => o.id == s.remoteId) = false) :
    localDelStep env st p = st := by
  unfold localDelStep
  split
  · rfl
  · have hcond : (env.delRemoteOk s.remoteId &&
        st.remoteFS.any (fun o => o.id == s.remoteId)) = false := by
      rcases h2 with h | h <;> simp [h]
    simp only [h1, hcond, Bool.false_eq_true, if_false]

theorem localDelStep_fire (env : Env) (st : RunState) (p : String) (s : FileSyncState)
    (hsnap : alookup p st.localSnap = none)
    (hmap : alookup p st.fileMap = some s)
    (hok : env.delRemoteOk s.remoteId = true)
    (hany : st.remoteFS.any (fun o => o.id == s.remoteId) = true) :
    localDelStep env st p =
      { st with
        remoteFS := st.remoteFS.filter (fun o => !(o.id == s.remoteId)),
        fileMap := aerase p st.fileMap } := by
  unfold localDelStep
  rw [hsnap]
  simp only [Option.isSome_none, Bool.false_eq_true, if_false, hmap, hok, hany,
    Bool.and_self, if_true]

theorem ldel_fold_lookup_none (env : Env) (p : String) (ks : List String) :
    ∀ st, alookup p st.fileMap = none →
      alookup p (ks.foldl (localDelStep env) st).fileMap = none := by
  induction ks with
  | nil => intro st h; exact h
  | cons k ks ih =>
    intro st h
    rw [List.foldl_cons]
    exact ih _ (localDelStep_lookup_none env st k h)

theorem ldel_fold_any_false (env : Env) (g : RemoteObj → Bool) (ks : List String) :
    ∀ st, st.remoteFS.any g = false →
      (ks.foldl (localDelStep env) st).remoteFS.any g = false := by
  induction ks with
  | nil => intro st h; exact h
  | cons k ks ih =>
    intro st h
    rw [List.foldl_cons]
    exact ih _ (localDelStep_any_false env st k h)

theorem ldel_fold_insnap (env : Env) (p : String) (ks : List String) :
    ∀ st, (alookup p st.localSnap).isSome = true →
      alookup p (ks.foldl (localDelStep env) st).fileMap = alookup p st.fileMap := by
  induction ks with
  | nil => intro st _; rfl
  | cons k ks ih =>
    intro st h
    rw [List.foldl_cons]
    have hsnap : (alookup p (localDelStep env st k).localSnap).isSome = true := by
      rw [(localDelStep_frame env st k).2.1]
      exact h
    rw [ih _ hsnap]
    by_cases hk : p = k
    · subst hk
      rw [localDelStep_of_insnap env st p h]
    · exact localDelStep_lookup_ne env st k hk

theorem ldel_fold_keep (env : Env) (p : String) (s : FileSyncState) (ks : List String) :
    ∀ st, alookup p st.fileMap = some s →
      (env.delRemoteOk s.remoteId = false ∨
        st.remoteFS.any (fun o => o.id == s.remoteId) = false) →
      alookup p (ks.foldl (localDelStep env) st).fileMap = some s := by
  induction ks with
  | nil => intro st h1 _; exact h1
  | cons k ks ih =>
    intro st h1 h2
    rw [List.foldl_cons]
    have h1' : alookup p (localDelStep env st k).fileMap = some s := by
      by_cases hk : p = k
      · subst hk
        rw [localDelStep_keep env st p s h1 h2]
        exact h1
      · rw [localDelStep_lookup_ne env st k hk]
        exact h1
    have h2' : env.delRemoteOk s.remoteId = false ∨
        (localDelStep env st k).remoteFS.any (fun o => o.id == s.remoteId) = false := by
      rcases h2 with h | h
      · exact Or.inl h
      · exact Or.inr (localDelStep_any_false env st k h)
    exact ih _ h1' h2'

theorem ldel_fold_success (env : Env) (p : String) (s : FileSyncState) (ks : List String) :
    ∀ st, alookup p st.localSnap = none →
      alookup p st.fileMap = some s →
      env.delRemoteOk s.remoteId = true →
      st.remoteFS.any (fun o => o.id == s.remoteId) = true →
      (∀ q t, alookup q st.fileMap = some t → t.remoteId = s.remoteId → q = p) →
      p ∈ ks →
      alookup p (ks.foldl (localDelStep env) st).fileMap = none ∧
      (ks.foldl (localDelStep env) st).remoteFS.any (fun o => o.id == s.remoteId) = false := by
  induction ks with
  | nil =>
    intro st _ _ _ _ _ hmem
    exact absurd hmem (List.not_mem_nil p)
  | cons k ks ih =>
    intro st hsnap hmap hok hany huniq hmem
    rw [List.foldl_cons]
    by_cases hk : k = p
    · subst hk
      rw [localDelStep_fire env st k s hsnap hmap hok hany]
      constructor
      · exact ldel_fold_lookup_none env k ks _ (alookup_aerase_self k st.fileMap)
      · exact ldel_fold_any_false env _ ks _ (any_filter_self s.remoteId st.remoteFS)
    · have hmem' : p ∈ ks := by
        rcases List.mem_cons.mp hmem with h | h
        · exact absurd h.symm hk
        · exact h
      have hsnap' : alookup p (localDelStep env st k).localSnap = none := by
        rw [(localDelStep_frame env st k).2.1]
        exact hsnap
      have hmap' : alookup p (localDelStep env st k).fileMap = some s := by
        rw [localDelStep_lookup_ne env st k (fun he => hk he.symm)]
        exact hmap
      have hany' : (localDelStep env st k).remoteFS.any
          (fun o => o.id == s.remoteId) = true := by
        rw [localDelStep_any_preserve env st k s.remoteId
          (fun t ht he => hk (huniq k t ht he))]
        exact hany
      have huniq' : ∀ q t, alookup q (localDelStep env st k).fileMap = some t →
          t.remoteId = s.remoteId → q = p := by
        intro q t hq ht
        exact huniq q t (localDelStep_lookup_sub env st k hq) ht
      exact ih _ hsnap' hmap' hok hany' huniq' hmem'

/-! ### Deletion Part 2: fold-level lemmas -/

theorem remoteDelStep_keep (env : Env) (st : RunState) (p : String)
    (h1 : (alookup p st.localFS).isSome = true) (h2 : env.delLocalOk p = false) :
    remoteDelStep env st p = st := by
  unfold remoteDelStep
  split
  · rfl
  · cases hm : alookup p st.fileMap
    · rfl
    · cases hl : alookup p st.localFS
      · rw [hl] at h1
        exact absurd h1 (by simp)
      · simp [h2]

theorem remoteDelStep_fire_local (env : Env) (st : RunState) (p : String)
    (s : FileSyncState) (hsnap : alookup p st.remoteSnap = none)
    (hm : alookup p st.fileMap = some s)
    (hl : (alookup p st.localFS).isSome = true)
    (hdel : env.delLocalOk p = true) :
    remoteDelStep env st p =
      { st with localFS := aerase p st.localFS, fileMap := aerase p st.fileMap } := by
  unfold remoteDelStep
  rw [hsnap]
  cases hlv : alookup p st.localFS
  · rw [hlv] at hl
    exact absurd hl (by simp)
  · simp only [Option.isSome_none, Bool.false_eq_true, if_false, hm, hlv, hdel, if_true]

theorem remoteDelStep_fire_nolocal (env : Env) (st : RunState) (p : String)
    (s : FileSyncState) (hsnap : alookup p st.remoteSnap = none)
    (hm : alookup p st.fileMap = some s)
    (hl : alookup p st.localFS = none) :
    remoteDelStep env st p = { st with fileMap := aerase p st.fileMap } := by
  unfold remoteDelStep
  rw [hsnap]
  simp only [Option.isSome_none, Bool.false_eq_true, if_false, hm, hl]

theorem remoteDelStep_fileMap_none (env : Env) (st : RunState) (k : String)
    {p : String} (h : alookup p st.fileMap = none) :
    alookup p (remoteDelStep env st k).fileMap = none := by
  unfold remoteDelStep
  repeat' split
  all_goals first
    | exact h
    | (dsimp only []
       exact alookup_aerase_of_none h)

theorem remoteDelStep_localFS_none (env : Env) (st : RunState) (k : String)
    {p : String} (h : alookup p st.localFS = none) :
    alookup p (remoteDelStep env st k).localFS = none := by
  unfold remoteDelStep
  repeat' split
  all_goals first
    | exact h
    | (dsimp only []
       exact alookup_aerase_of_none h)

theorem rdel_fold_fileMap_none (env : Env) (p : String) (ks : List String) :
    ∀ st, alookup p st.fileMap = none →
      alookup p (ks.foldl (remoteDelStep env) st).fileMap = none := by
  induction ks with
  | nil => intro st h; exact h
  | cons k ks ih =>
    intro st h
    rw [List.foldl_cons]
    exact ih _ (remoteDelStep_fileMap_none env st k h)

theorem rdel_fold_localFS_none (env : Env) (p : String) (ks : List String) :
    ∀ st, alookup p st.localFS = none →
      alookup p (ks.foldl (remoteDelStep env) st).localFS = none := by
  induction ks with
  | nil => intro st h; exact h
  | cons k ks ih =>
    intro st h
    rw [List.foldl_cons]
    exact ih _ (remoteDelStep_localFS_none env st k h)

theorem rdel_fold_insnap (env : Env) (p : String) (ks : List String) :
    ∀ st, (alookup p st.remoteSnap).isSome = true →
      alookup p (ks.foldl (remoteDelStep env) st).fileMap = alookup p st.fileMap ∧
      alookup p (ks.foldl (remoteDelStep env) st).localFS = alookup p st.localFS := by
  induction ks with
  | nil => intro st _; exact ⟨rfl, rfl⟩
  | cons k ks ih =>
    intro st h
    rw [List.foldl_cons]
    have hsnap : (alookup p (remoteDelStep env st k).remoteSnap).isSome = true := by
      rw [(remoteDelStep_frame env st k).2.2.1]
      exact h
    obtain ⟨ih1, ih2⟩ := ih _ hsnap
    rw [ih1, ih2]
    by_cases hk : p = k
    · subst hk
      rw [remoteDelStep_of_insnap env st p h]
      exact ⟨rfl, rfl⟩
    · exact remoteDelStep_lookup_ne env st k hk

theorem rdel_fold_keep (env : Env) (p : String) (ks : List String) :
    ∀ st, (alookup p st.localFS).isSome = true → env.delLocalOk p = false →
      alookup p (ks.foldl (remoteDelStep env) st).fileMap = alookup p st.fileMap ∧
      alookup p (ks.foldl (remoteDelStep env) st).localFS = alookup p st.localFS := by
  induction ks with
  | nil => intro st _ _; exact ⟨rfl, rfl⟩
  | cons k ks ih =>
    intro st h1 h2
    rw [List.foldl_cons]
    by_cases hk : p = k
    · subst hk
      rw [remoteDelStep_keep env st p h1 h2]
      exact ih _ h1 h2
    · have hne := remoteDelStep_lookup_ne env st k hk
      have h1' : (alookup p (remoteDelStep env st k).localFS).isSome = true := by
        rw [hne.2]
        exact h1
      obtain ⟨ih1, ih2⟩ := ih _ h1' h2
      rw [ih1, ih2, hne.1, hne.2]
      exact ⟨rfl, rfl⟩

theorem rdel_fold_removed (env : Env) (p : String) (s : FileSyncState) (ks : List String) :
    ∀ st, alookup p st.remoteSnap = none →
      alookup p st.fileMap = some s →
      (alookup p st.localFS = none ∨ env.delLocalOk p = true) →
      p ∈ ks →
      alookup p (ks.foldl (remoteDelStep env) st).fileMap = none ∧
      alookup p (ks.foldl (remoteDelStep env) st).localFS = none := by
  induction ks with
  | nil =>
    intro st _ _ _ hmem
    exact absurd hmem (List.not_mem_nil p)
  | cons k ks ih =>
    intro st hsnap hm hdisj hmem
    rw [List.foldl_cons]
    by_cases hk : k = p
    · subst hk
      rcases hdisj with hl | hdel
      · rw [remoteDelStep_fire_nolocal env st k s hsnap hm hl]
        constructor
        · exact rdel_fold_fileMap_none env k ks _ (alookup_aerase_self k st.fileMap)
        · exact rdel_fold_localFS_none env k ks _ hl
      · cases hl : alookup k st.localFS with
        | none =>
          rw [remoteDelStep_fire_nolocal env st k s hsnap hm hl]
          constructor
          · exact rdel_fold_fileMap_none env k ks _ (alookup_aerase_self k st.fileMap)
          · exact rdel_fold_localFS_none env k ks _ hl
        | some lf =>
          rw [remoteDelStep_fire_local env st k s hsnap hm (by rw [hl]; rfl) hdel]
          constructor
          · exact rdel_fold_fileMap_none env k ks _ (alookup_aerase_self k st.fileMap)
          · exact rdel_fold_localFS_none env k ks _ (alookup_aerase_self k st.localFS)
    · have hmem' : p ∈ ks := by
        rcases List.mem_cons.mp hmem with h | h
        · exact absurd h.symm hk
        · exact h
      have hne := remoteDelStep_lookup_ne env st k (fun he => hk he.symm)
      have hsnap' : alookup p (remoteDelStep env st k).remoteSnap = none := by
        rw [(remoteDelStep_frame env st k).2.2.1]
        exact hsnap
      have hm' : alookup p (remoteDelStep env st k).fileMap = some s := by
        rw [hne.1]
        exact hm
      have hdisj' : alookup p (remoteDelStep env st k).localFS = none ∨
          env.delLocalOk p = true := by
        rcases hdisj with h | h
        · exact Or.inl (by rw [hne.2]; exact h)
        · exact Or.inr h
      exact ih _ hsnap' hm' hdisj' hmem'

/-! ### Download pass and upload loop: fold-level lemmas -/

theorem dload_fold_fail (env : Env) (p : String)
    (h : env.downloadOk p = false ∨ env.writeOk p = false)
    (l : List (String × RemoteEntry)) :
    ∀ st, alookup p ((l.foldl (fun s pe => downloadStep env s pe.1 pe.2) st)).fileMap
        = alookup p st.fileMap ∧
      alookup p ((l.foldl (fun s pe => downloadStep env s pe.1 pe.2) st)).localFS
        = alookup p st.localFS := by
  induction l with
  | nil => intro st; exact ⟨rfl, rfl⟩
  | cons pe l ih =>
    intro st
    rw [List.foldl_cons]
    obtain ⟨ih1, ih2⟩ := ih (downloadStep env st pe.1 pe.2)
    rw [ih1, ih2]
    by_cases hk : p = pe.1
    · rw [downloadStep_fail env st pe.1 pe.2 (hk ▸ h)]
      exact ⟨rfl, rfl⟩
    · exact downloadStep_lookup_ne env st pe.1 pe.2 hk

theorem downloadPass_frame (env : Env) (st : RunState) :
    (downloadPass env st).remoteFS = st.remoteFS ∧
    (downloadPass env st).remoteSnap = st.remoteSnap ∧
    (downloadPass env st).localSnap = st.localSnap ∧
    (downloadPass env st).saves = st.saves :=
  ⟨foldl_preserve (fun s => s.remoteFS) (fun s pe => downloadStep env s pe.1 pe.2)
      (fun a b => (downloadStep_frame env a b.1 b.2).1) st.remoteSnap st,
   foldl_preserve (fun s => s.remoteSnap) (fun s pe => downloadStep env s pe.1 pe.2)
      (fun a b => (downloadStep_frame env a b.1 b.2).2.1) st.remoteSnap st,
   foldl_preserve (fun s => s.localSnap) (fun s pe => downloadStep env s pe.1 pe.2)
      (fun a b => (downloadStep_frame env a b.1 b.2).2.2.1) st.remoteSnap st,
   foldl_preserve (fun s => s.saves) (fun s pe => downloadStep env s pe.1 pe.2)
      (fun a b => (downloadStep_frame env a b.1 b.2).2.2.2) st.remoteSnap st⟩

theorem localDelPass_frame (env : Env) (st : RunState) :
    (localDelPass env st).localFS = st.localFS ∧
    (localDelPass env st).localSnap = st.localSnap ∧
    (localDelPass env st).remoteSnap = st.remoteSnap ∧
    (localDelPass env st).saves = st.saves :=
  ⟨foldl_preserve (fun s => s.localFS) (localDelStep env)
      (fun a b => (localDelStep_frame env a b).1) (akeys st.fileMap) st,
   foldl_preserve (fun s => s.localSnap) (localDelStep env)
      (fun a b => (localDelStep_frame env a b).2.1) (akeys st.fileMap) st,
   foldl_preserve (fun s => s.remoteSnap) (localDelStep env)
      (fun a b => (localDelStep_frame env a b).2.2.1) (akeys st.fileMap) st,
   foldl_preserve (fun s => s.saves) (localDelStep env)
      (fun a b => (localDelStep_frame env a b).2.2.2) (akeys st.fileMap) st⟩

theorem remoteDelPass_frame (env : Env) (st : RunState) :
    (remoteDelPass env st).remoteFS = st.remoteFS ∧
    (remoteDelPass env st).localSnap = st.localSnap ∧
    (remoteDelPass env st).remoteSnap = st.remoteSnap ∧
    (remoteDelPass env st).saves = st.saves :=
  ⟨foldl_preserve (fun s => s.remoteFS) (remoteDelStep env)
      (fun a b => (remoteDelStep_frame env a b).1) (akeys st.fileMap) st,
   foldl_preserve (fun s => s.localSnap) (remoteDelStep env)
      (fun a b => (remoteDelStep_frame env a b).2.1) (akeys st.fileMap) st,
   foldl_preserve (fun s => s.remoteSnap) (remoteDelStep env)
      (fun a b => (remoteDelStep_frame env a b).2.2.1) (akeys st.fileMap) st,
   foldl_preserve (fun s => s.saves) (remoteDelStep env)
      (fun a b => (remoteDelStep_frame env a b).2.2.2) (akeys st.fileMap) st⟩

theorem uploadLoop_saves (env : Env) :
    ∀ fuel processed wl st, (uploadLoop env fuel processed wl st).saves = st.saves := by
  intro fuel
  induction fuel with
  | zero => intro _ _ _; rfl
  | succ n ih =>
    intro processed wl st
    cases wl with
    | nil => rfl
    | cons hd tl =>
      obtain ⟨p, m⟩ := hd
      have hsv := uploadStep_saves env st p m
      cases hstep : uploadStep env st p m with
      | mk st2 spawn =>
        have hsv2 : st2.saves = st.saves := by
          rw [hstep] at hsv
          exact hsv
        cases spawn with
        | none =>
          simp only [uploadLoop, hstep]
          rw [ih, hsv2]
        | some qb =>
          obtain ⟨q2, b⟩ := qb
          simp only [uploadLoop, hstep]
          split
          · rw [ih, hsv2]
          · split
            · rw [ih, hsv2]
            · rw [ih, hsv2]

theorem uploadLoop_fileMap_fail (env : Env) {p : String}
    (h : env.readFails p = true ∨ env.uploadOk p = false) :
    ∀ fuel processed wl st,
      alookup p (uploadLoop env fuel processed wl st).fileMap = alookup p st.fileMap := by
  intro fuel
  induction fuel with
  | zero => intro _ _ _; rfl
  | succ n ih =>
    intro processed wl st
    cases wl with
    | nil => rfl
    | cons hd tl =>
      obtain ⟨k, m⟩ := hd
      cases hstep : uploadStep env st k m with
      | mk st2 spawn =>
        have hst2 : alookup p st2.fileMap = alookup p st.fileMap := by
          by_cases hk : k = p
          · subst hk
            have h2 := uploadStep_fileMap_fail env st k m h
            rw [hstep] at h2
            rw [show st2.fileMap = st.fileMap from h2]
          · have h2 := uploadStep_fileMap_ne env st k m (fun he => hk he.symm)
            rw [hstep] at h2
            exact h2
        cases spawn with
        | none =>
          simp only [uploadLoop, hstep]
          rw [ih, hst2]
        | some qb =>
          obtain ⟨q2, b⟩ := qb
          simp only [uploadLoop, hstep]
          split
          · rw [ih, hst2]
          · split
            · rw [ih, hst2]
            · rw [ih, hst2]

theorem uploadLoop_md (env : Env) {q : String} (hq : isMdPath q = false) :
    ∀ fuel processed wl st, (∀ pm ∈ wl, isMdPath (Prod.fst pm) = true) →
      alookup q (uploadLoop env fuel processed wl st).fileMap = alookup q st.fileMap ∧
      ∀ o ∈ (uploadLoop env fuel processed wl st).remoteFS,
        o ∈ st.remoteFS ∨ isMdPath o.name = true := by
  intro fuel
  induction fuel with
  | zero => intro _ _ _ _; exact ⟨rfl, fun o ho => Or.inl ho⟩
  | succ n ih =>
    intro processed wl st hwl
    cases wl with
    | nil => exact ⟨rfl, fun o ho => Or.inl ho⟩
    | cons hd tl =>
      obtain ⟨p, m⟩ := hd
      have hpmd : isMdPath p = true := hwl (p, m) (List.mem_cons_self _ _)
      have hqp : q ≠ p := fun he => by
        rw [he, hpmd] at hq
        exact Bool.noConfusion hq
      have htl : ∀ pm ∈ tl, isMdPath pm.1 = true :=
        fun pm hpm => hwl pm (List.mem_cons_of_mem _ hpm)
      have hstep_fm := uploadStep_fileMap_ne env st p m hqp
      cases hstep : uploadStep env st p m with
      | mk st2 spawn =>
        have hfm2 : alookup q st2.fileMap = alookup q st.fileMap := by
          rw [hstep] at hstep_fm
          exact hstep_fm
        have hrm2 : ∀ o ∈ st2.remoteFS, o ∈ st.remoteFS ∨ isMdPath o.name = true := by
          intro o ho
          have hmem := uploadStep_remote_mem env st p m (o := o) (by rw [hstep]; exact ho)
          rcases hmem with h | h
          · exact Or.inl h
          · exact Or.inr (h ▸ hpmd)
        have combine : ∀ wl2, (∀ pm ∈ wl2, isMdPath (Prod.fst pm) = true) →
            alookup q (uploadLoop env n (p :: processed) wl2 st2).fileMap
              = alookup q st.fileMap ∧
            ∀ o ∈ (uploadLoop env n (p :: processed) wl2 st2).remoteFS,
              o ∈ st.remoteFS ∨ isMdPath o.name = true := by
          intro wl2 hwl2
          obtain ⟨i1, i2⟩ := ih (p :: processed) wl2 st2 hwl2
          constructor
          · rw [i1]
            exact hfm2
          · intro o ho
            rcases i2 o ho with h | h
            · exact hrm2 o h
            · exact Or.inr h
        cases spawn with
        | none =>
          simp only [uploadLoop, hstep]
          exact combine tl htl
        | some qb =>
          obtain ⟨q2, b⟩ := qb
          have hq2 : q2 = conflictName p (env.conflictTs p) :=
            uploadStep_spawn env st p m (by rw [hstep])
          have hq2md : isMdPath q2 = true := by
            rw [hq2]
            exact isMdPath_conflictName _ hpmd
          simp only [uploadLoop, hstep]
          split
          · exact combine tl htl
          · split
            · refine combine (aset q2 b tl) ?_
              intro pm hpm
              rcases mem_aset hpm with h | h
              · rw [h]
                exact hq2md
              · exact htl pm h
            · refine combine (tl ++ [(q2, b)]) ?_
              intro pm hpm
              rcases List.mem_append.mp hpm with h | h
              · exact htl pm h
              · simp at h
                rw [show pm.1 = q2 from by rw [h]]
                exact hq2md

/-! ### Remaining shared helpers -/

theorem alookup_singleton_eq {β : Type} {q k : String} {v : β} {t : β}
    (h : alookup q [(k, v)] = some t) : q = k := by
  by_cases hk : q = k
  · exact hk
  · rw [alookup, if_neg hk] at h
    exact Option.noConfusion h

theorem checkpoint_saves (st : RunState) : (checkpoint st).saves = st.saves ++ [st.fileMap] :=
  rfl

theorem checkpoint_fileMap (st : RunState) : (checkpoint st).fileMap = st.fileMap := rfl

/-! ### Claim theorems -/

/-- C2 (code-bug evaluation): running `syncNow` on `wStale` — a plain local
edit of a remotely-present file, every operation succeeding — and then
computing the plan of a second run with no intervening local or remote
change yields a non-empty plan: the upload of the first run stored the
pre-upload snapshot `modifiedTime` (3) instead of the server-assigned one
(100), so the second run classifies the path as `download_update` instead
of `skip`.  The claim says the second run's plan is empty. -/
theorem C2_second_run_plan_not_empty :
    planIsEmpty envOk (runSync envOk wStale).toWorld = false ∧
    (alookup "n.md" (runSync envOk wStale).fileMap).map (fun s => s.remoteMtime)
      = some (some 3) ∧
    (runSync envOk wStale).remoteFS.map (fun o => o.modifiedTime) = [100] ∧
    classifyDownload (some 5) (alookup "n.md" (runSync envOk wStale).fileMap) 100
      = .downloadUpdate := by
  decide

/-- C3 (code-bug evaluation): after a `syncNow` run on `wStale` with no
failing operation, the local side converges (`localMtimeEpoch` = actual
local mtime 5) but the stored `remoteMtime` is the stale pre-upload
snapshot value 3 while the remote entry's actual `modifiedTime` is the
server-assigned 100 — the code prefers `remoteFilesMap.get(path)` over the
fresh post-upload metadata its own comment promises. -/
theorem C3_stale_upload_metadata :
    (alookup "n.md" (runSync envOk wStale).fileMap).map (fun s => s.localMtimeEpoch)
      = some (some 5) ∧
    (runSync envOk wStale).localFS = [("n.md", { mtime := 5, content := 7 })] ∧
    (runSync envOk wStale).remoteFS.map (fun o => o.modifiedTime) = [100] ∧
    (alookup "n.md" (runSync envOk wStale).fileMap).map (fun s => s.remoteMtime)
      = some (some 3) ∧
    some (3 : Nat) ≠ some 100 := by
  decide

/-- C4 (code-bug evaluation): a transient `stat` error on `a.md` excludes
the path from the local snapshot (the claim's exclusion half holds), but
the same run's local-deletions pass then treats the missing snapshot entry
as a local deletion: it destroys the remote object and drops the SyncState
entry, while the local file still exists untouched — a destructive action
taken against the erroring path within the same run. -/
theorem C4_destructive_delete_on_stat_error :
    alookup "a.md" (initState envStatErr wStatErr).localSnap = none ∧
    wStatErr.remoteFS ≠ [] ∧
    (runSync envStatErr wStatErr).remoteFS = [] ∧
    (runSync envStatErr wStatErr).fileMap = [] ∧
    alookup "a.md" (runSync envStatErr wStatErr).localFS
      = some { mtime := 5, content := 1 } := by
  decide

/-- C5: deletion propagation is two passes over the SyncState keys, the
local-deletions pass strictly before the remote-deletions pass (first
conjunct: the run applies `remoteDelPass` to the output of `localDelPass`).
For a path `p` whose entry is `s`: if `p` is absent from the local snapshot
then a successful remote delete (API consent and a resolvable id, with no
other entry sharing the id) removes both the remote object and the entry,
while a failed delete retains the entry; if `p` is absent from the remote
snapshot then the entry is removed — deleting the local file when one still
exists — whether or not a local file existed, except that a failed local
delete retains both the entry and the file. -/
theorem C5_deletion_passes (env : Env) (w : World) (st : RunState) (p : String)
    (s : FileSyncState) (hmap : alookup p st.fileMap = some s) :
    runSync env w =
      remoteDelPass env (checkpoint (localDelPass env (checkpoint (downloadPass env
        (checkpoint (uploadPhase env w)))))) ∧
    (alookup p st.localSnap = none →
      env.delRemoteOk s.remoteId = true →
      st.remoteFS.any (fun o => o.id == s.remoteId) = true →
      (∀ q t, alookup q st.fileMap = some t → t.remoteId = s.remoteId → q = p) →
      alookup p (localDelPass env st).fileMap = none ∧
      (localDelPass env st).remoteFS.any (fun o => o.id == s.remoteId) = false) ∧
    (env.delRemoteOk s.remoteId = false ∨
        st.remoteFS.any (fun o => o.id == s.remoteId) = false →
      alookup p (localDelPass env st).fileMap = some s) ∧
    (alookup p st.remoteSnap = none →
      ((alookup p st.localFS = none ∨ env.delLocalOk p = true) →
        alookup p (remoteDelPass env st).fileMap = none ∧
        alookup p (remoteDelPass env st).localFS = none) ∧
      ((alookup p st.localFS).isSome = true → env.delLocalOk p = false →
        alookup p (remoteDelPass env st).fileMap = some s ∧
        alookup p (remoteDelPass env st).localFS = alookup p st.localFS)) := by
  refine ⟨rfl, ?_, ?_, ?_⟩
  · intro hsnap hok hany huniq
    exact ldel_fold_success env p s (akeys st.fileMap) st hsnap hmap hok hany huniq
      (mem_akeys_of_alookup hmap)
  · intro h2
    exact ldel_fold_keep env p s (akeys st.fileMap) st hmap h2
  · intro hsnap
    constructor
    · intro hdisj
      exact rdel_fold_removed env p s (akeys st.fileMap) st hsnap hmap hdisj
        (mem_akeys_of_alookup hmap)
    · intro h1 h2
      obtain ⟨r1, r2⟩ := rdel_fold_keep env p (akeys st.fileMap) st h1 h2
      rw [hmap] at r1
      exact ⟨r1, r2⟩

/-- Witness for C5 at a concrete state: `d.md` is in the sync state with
remote id 3 and absent from the local snapshot, every delete succeeds, so
the local-deletions pass removes both the entry and the remote object. -/
theorem C5_deletion_passes_witness :
    alookup "d.md" stDel.fileMap = some sDel ∧
    alookup "d.md" (localDelPass envOk stDel).fileMap = none ∧
    (localDelPass envOk stDel).remoteFS.any (fun o => o.id == sDel.remoteId) = false := by
  refine ⟨by decide, ?_⟩
  refine (C5_deletion_passes envOk wRemoteGone stDel "d.md" sDel
    (by decide)).2.1 (by decide) (by decide) (by decide) ?_
  intro q t hq hrid
  by_cases h1 : q = "d.md"
  · exact h1
  · exfalso
    by_cases h2 : q = "t.md"
    · subst h2
      have hv : alookup "t.md" stDel.fileMap = some sTie := by decide
      rw [hv] at hq
      injection hq with hq
      rw [← hq] at hrid
      exact absurd hrid (by decide)
    · have hnone : alookup q stDel.fileMap = none := by
        simp [stDel, alookup, h1, h2]
      rw [hnone] at hq
      exact Option.noConfusion hq

/-- C6: equal timestamps on both sides trigger nothing.  If a path's
SyncState records exactly the current local mtime and exactly the current
remote `modifiedTime`, then — regardless of the absolute values, including
the falsy `localMtimeEpoch = 0` case — the upload classification is one of
the two no-action skips (never an upload or a conflict), the download
classification is `skip`, and the two deletion passes leave the entry and
the local file untouched. -/
theorem C6_tie_rule (env : Env) (st : RunState) (p : String) (s : FileSyncState)
    (lm : Nat) (e : RemoteEntry)
    (hmap : alookup p st.fileMap = some s)
    (hls : alookup p st.localSnap = some lm)
    (hrs : alookup p st.remoteSnap = some e)
    (hlm : s.localMtimeEpoch = some lm)
    (hrm : s.remoteMtime = some e.modifiedTime) :
    (classifyUpload (some s) lm (some e) = .skipUnchanged ∨
      classifyUpload (some s) lm (some e) = .skipDefer) ∧
    classifyDownload (some lm) (some s) e.modifiedTime = .skip ∧
    alookup p (localDelPass env st).fileMap = some s ∧
    alookup p (remoteDelPass env (localDelPass env st)).fileMap = some s ∧
    alookup p (remoteDelPass env (localDelPass env st)).localFS = alookup p st.localFS := by
  have hup : classifyUpload (some s) lm (some e) = .skipUnchanged ∨
      classifyUpload (some s) lm (some e) = .skipDefer := by
    unfold classifyUpload
    by_cases hz : lm = 0
    · subst hz
      simp [localMoved, hlm, hrm]
    · simp [localMoved, hlm, hrm, hz]
  have hdown : classifyDownload (some lm) (some s) e.modifiedTime = .skip := by
    simp [classifyDownload, hrm]
  have h1 : alookup p (localDelPass env st).fileMap = some s := by
    have hfold := ldel_fold_insnap env p (akeys st.fileMap) st (by rw [hls]; rfl)
    rw [hmap] at hfold
    exact hfold
  have hsnap1 : (alookup p (localDelPass env st).remoteSnap).isSome = true := by
    rw [(localDelPass_frame env st).2.2.1, hrs]
    rfl
  obtain ⟨h2, h3⟩ := rdel_fold_insnap env p (akeys (localDelPass env st).fileMap)
    (localDelPass env st) hsnap1
  refine ⟨hup, hdown, h1, ?_, ?_⟩
  · exact h2.trans h1
  · exact h3.trans (by rw [(localDelPass_frame env st).1])

/-- Witness for C6 at a concrete state: `t.md` carries equal timestamps on
both sides (local mtime 7 = recorded, remote mtime 9 = recorded) and the
run takes no action on it. -/
theorem C6_tie_rule_witness :
    alookup "t.md" stDel.fileMap = some sTie ∧
    ((classifyUpload (some sTie) 7 (some eTie) = .skipUnchanged ∨
      classifyUpload (some sTie) 7 (some eTie) = .skipDefer) ∧
    classifyDownload (some 7) (some sTie) eTie.modifiedTime = .skip ∧
    alookup "t.md" (localDelPass envOk stDel).fileMap = some sTie ∧
    alookup "t.md" (remoteDelPass envOk (localDelPass envOk stDel)).fileMap = some sTie ∧
    alookup "t.md" (remoteDelPass envOk (localDelPass envOk stDel)).localFS
      = alookup "t.md" stDel.localFS) :=
  ⟨by decide,
   C6_tie_rule envOk stDel "t.md" sTie 7 eTie (by decide) (by decide) (by decide) rfl rfl⟩

/-- C7 (counterexample): on `wRemoteGone` — whose only entry the
remote-deletions pass removes — the run checkpoints the sync-state map only
three times (after the upload, download and local-deletions passes), all
three still holding the old entry, and returns with the final map never
persisted: there is no checkpoint after the remote-deletions pass. -/
theorem C7_checkpoint_counterexample :
    (runSync envOk wRemoteGone).saves =
      [wRemoteGone.fileMap, wRemoteGone.fileMap, wRemoteGone.fileMap] ∧
    (runSync envOk wRemoteGone).fileMap = [] ∧
    wRemoteGone.fileMap ≠ [] := by
  decide

/-- C7 (amended): the persisted-state trace of every run is exactly three
checkpoints — after the upload pass, after the download pass, and after the
local-deletions pass; the remote-deletions pass, which runs last, is
followed by no checkpoint before the run returns. -/
theorem C7_checkpoints_amended (env : Env) (w : World) :
    (runSync env w).saves =
      [(uploadPhase env w).fileMap,
       (downloadPass env (checkpoint (uploadPhase env w))).fileMap,
       (localDelPass env (checkpoint (downloadPass env
         (checkpoint (uploadPhase env w))))).fileMap] := by
  have h0 : (uploadPhase env w).saves = [] := by
    unfold uploadPhase
    rw [uploadLoop_saves]
    rfl
  unfold runSync
  rw [(remoteDelPass_frame env _).2.2.2, checkpoint_saves,
    (localDelPass_frame env _).2.2.2, checkpoint_saves,
    (downloadPass_frame env _).2.2.2, checkpoint_saves, h0]
  rfl

/-- C8: the sync-state map is never mutated after a failed operation.  Per
pass: a path whose local read errors or whose upload returns no id keeps
its entry through the whole upload loop (which processes the remaining
worklist regardless); a path whose download or local write fails keeps its
entry and its local file through the download pass; a failed remote delete
(API refusal or unresolvable id) retains the entry in the local-deletions
pass; and a failed local delete retains both the entry and the local file
in the remote-deletions pass. -/
theorem C8_no_mutation_on_failure (env : Env) :
    (∀ fuel processed wl st (p : String),
        env.readFails p = true ∨ env.uploadOk p = false →
        alookup p (uploadLoop env fuel processed wl st).fileMap = alookup p st.fileMap) ∧
    (∀ st (p : String), env.downloadOk p = false ∨ env.writeOk p = false →
        alookup p (downloadPass env st).fileMap = alookup p st.fileMap ∧
        alookup p (downloadPass env st).localFS = alookup p st.localFS) ∧
    (∀ st (p : String) (s : FileSyncState), alookup p st.fileMap = some s →
        env.delRemoteOk s.remoteId = false ∨
          st.remoteFS.any (fun o => o.id == s.remoteId) = false →
        alookup p (localDelPass env st).fileMap = some s) ∧
    (∀ st (p : String), (alookup p st.localFS).isSome = true →
        env.delLocalOk p = false →
        alookup p (remoteDelPass env st).fileMap = alookup p st.fileMap ∧
        alookup p (remoteDelPass env st).localFS = alookup p st.localFS) :=
  ⟨fun fuel processed wl st p h => @uploadLoop_fileMap_fail env p h fuel processed wl st,
   fun st p h => dload_fold_fail env p h st.remoteSnap st,
   fun st p s h1 h2 => ldel_fold_keep env p s (akeys st.fileMap) st h1 h2,
   fun st p h1 h2 => rdel_fold_keep env p (akeys st.fileMap) st h1 h2⟩

/-- Witness for C8: with uploads disabled for every path, one loop step on
a one-file worklist leaves the entry of `n.md` exactly as it was. -/
theorem C8_no_mutation_on_failure_witness :
    (({ envOk with uploadOk := (fun _ => false) } : Env).readFails "n.md" = true ∨
      ({ envOk with uploadOk := (fun _ => false) } : Env).uploadOk "n.md" = false) ∧
    alookup "n.md" (uploadLoop { envOk with uploadOk := (fun _ => false) } 3 []
        [("n.md", 5)] (initState { envOk with uploadOk := (fun _ => false) } wStale)).fileMap
      = alookup "n.md" (initState { envOk with uploadOk := (fun _ => false) } wStale).fileMap :=
  ⟨Or.inr rfl,
   (C8_no_mutation_on_failure { envOk with uploadOk := (fun _ => false) }).1 3 []
     [("n.md", 5)] _ "n.md" (Or.inr rfl)⟩

/-- C9: a SyncState entry whose `localMtimeEpoch` is absent or zero is
treated as locally changed — JS falsiness of `!existingMapping.localMtimeEpoch` —
for every actual local mtime, so the upload classification proceeds to the
conflict / update-upload / defer decision and never yields the
"unchanged" skip (nor, trivially, the no-entry `uploadNew`). -/
theorem C9_falsy_localMtime (s : FileSyncState) (mtime : Nat)
    (remote : Option RemoteEntry)
    (h : s.localMtimeEpoch = none ∨ s.localMtimeEpoch = some 0) :
    localMoved s.localMtimeEpoch mtime = true ∧
    classifyUpload (some s) mtime remote ≠ .skipUnchanged ∧
    classifyUpload (some s) mtime remote ≠ .uploadNew := by
  have hm : localMoved s.localMtimeEpoch mtime = true := by
    rcases h with h | h <;> simp [localMoved, h]
  refine ⟨hm, ?_, ?_⟩
  all_goals
    simp only [classifyUpload]
    rw [hm, if_pos rfl]
    split
    · decide
    · split
      · decide
      · decide

/-- Witness for C9: `localMtimeEpoch = 0` with local mtime 0 still counts
as moved and is not classified unchanged. -/
theorem C9_falsy_localMtime_witness :
    (sZero.localMtimeEpoch = none ∨ sZero.localMtimeEpoch = some 0) ∧
    localMoved sZero.localMtimeEpoch 0 = true ∧
    classifyUpload (some sZero) 0 (some eZero) ≠ .skipUnchanged ∧
    classifyUpload (some sZero) 0 (some eZero) ≠ .uploadNew :=
  ⟨Or.inr rfl, C9_falsy_localMtime sZero 0 (some eZero) (Or.inr rfl)⟩

/-- C10: the local snapshot contains only markdown paths outside
`.obsidian/`; consequently a non-markdown path `q` is never uploaded by the
upload phase — its `fileMap` entry is whatever it was before, and every
remote object after the phase either predates it or carries a markdown
name (conflict backups of markdown files are again markdown). -/
theorem C10_markdown_only (env : Env) (w : World) (q : String)
    (hq : isMdPath q = false) :
    (∀ pm ∈ collectLocalSnap env w.localFS,
        isMdPath (Prod.fst pm) = true ∧ inObsidianDir (Prod.fst pm) = false) ∧
    alookup q (uploadPhase env w).fileMap = alookup q w.fileMap ∧
    (∀ o ∈ (uploadPhase env w).remoteFS, o ∈ w.remoteFS ∨ isMdPath o.name = true) := by
  have hsnap : ∀ pm ∈ collectLocalSnap env w.localFS,
      isMdPath (Prod.fst pm) = true ∧ inObsidianDir (Prod.fst pm) = false := by
    intro pm hpm
    unfold collectLocalSnap at hpm
    rw [List.mem_map] at hpm
    obtain ⟨pf, hpf, heq⟩ := hpm
    rw [List.mem_filter] at hpf
    have hcond := hpf.2
    rw [Bool.and_eq_true, Bool.and_eq_true] at hcond
    have h1 : pm.1 = pf.1 := by rw [← heq]
    rw [h1]
    refine ⟨hcond.1.1, ?_⟩
    have := hcond.1.2
    cases hob : inObsidianDir pf.1
    · rfl
    · rw [hob] at this
      exact absurd this (by decide)
  have hsnap2 : ∀ pm ∈ (initState env w).localSnap, isMdPath (Prod.fst pm) = true :=
    fun pm hpm => (hsnap pm hpm).1
  obtain ⟨hfm, hrm⟩ := uploadLoop_md env hq
    ((initState env w).localSnap.length + (initState env w).fileMap.length + 1)
    [] (initState env w).localSnap (initState env w) hsnap2
  exact ⟨hsnap, hfm, hrm⟩

/-- Witness for C10: `img.png` is not markdown, is absent from the
snapshot-driven upload phase, and acquires no `fileMap` entry. -/
theorem C10_markdown_only_witness :
    isMdPath "img.png" = false ∧
    alookup "img.png" (uploadPhase envOk wMix).fileMap = alookup "img.png" wMix.fileMap :=
  ⟨by decide, (C10_markdown_only envOk wMix "img.png" (by decide)).2.1⟩

/-- C1 (counterexample): with `T0 = 10 < T2 = 20 < T1 = 30` — both sides
moved after the agreement point, satisfying the claim's `T1, T2 > T0` —
and every operation succeeding, the run writes the backup but the download
pass then skips `p` (`remoteMtimeEpoch < localFileStat.mtime`): `p` keeps
the local content 1, not the remote content 2, and `SyncState[p].remoteMtime`
stays `T0 = 10`, not `T2 = 20`. -/
theorem C1_conflict_counterexample :
    alookup "n_local_conflict_T.md"
        (runSync envSplitStat (conflictWorld "n.md" 10 30 20 1 2 5)).localFS
      = some { mtime := 60, content := 1 } ∧
    alookup "n.md" (runSync envSplitStat (conflictWorld "n.md" 10 30 20 1 2 5)).localFS
      = some { mtime := 30, content := 1 } ∧
    (alookup "n.md" (runSync envSplitStat (conflictWorld "n.md" 10 30 20 1 2 5)).fileMap).map
        (fun s => s.remoteMtime) = some (some 10) ∧
    some (some (10 : Nat)) ≠ some (some 20) := by
  decide

/-- C1 (amended): for every markdown path `p` outside `.obsidian/` with
sync state `{localMtimeEpoch = T0, remoteMtime = T0}`, local mtime
`T1 > T0` and remote `modifiedTime` `T2 > T0`, provided additionally that
`T2 > T1` and that the run's per-path operations succeed, a single run
writes the original local content `a` to the backup path (the timestamp
token inserted before the extension), leaves `p` holding the remote
content `b`, and ends with `SyncState[p].remoteMtime = T2`. -/
theorem C1_conflict_amended (env : Env) (p : String) (T0 T1 T2 a b r : Nat)
    (hmd : isMdPath p = true)
    (hobs : inObsidianDir p = false)
    (h01 : T0 < T1) (h02 : T0 < T2) (h12 : T1 < T2)
    (hstat : env.statFails p = false)
    (hlist : env.listFails = false)
    (hread : env.readFails p = false)
    (hcpw : env.writeOk (conflictName p (env.conflictTs p)) = true)
    (hcpr : env.readFails (conflictName p (env.conflictTs p)) = false)
    (hcpu : env.uploadOk (conflictName p (env.conflictTs p)) = true)
    (hcpl : env.relistFails (conflictName p (env.conflictTs p)) = false)
    (hdl : env.downloadOk p = true)
    (hw : env.writeOk p = true) :
    alookup (conflictName p (env.conflictTs p))
        (runSync env (conflictWorld p T0 T1 T2 a b r)).localFS
      = some { mtime := env.statAfterWrite (conflictName p (env.conflictTs p)),
               content := a } ∧
    alookup p (runSync env (conflictWorld p T0 T1 T2 a b r)).localFS
      = some { mtime := env.statAfterWrite p, content := b } ∧
    (alookup p (runSync env (conflictWorld p T0 T1 T2 a b r)).fileMap).map
        (fun s => s.remoteMtime) = some (some T2) := by
  have hne : conflictName p (env.conflictTs p) ≠ p := conflictName_ne p _
  have hner : (r == r + 1) = false :=
    beq_eq_false_iff_ne.mpr (Nat.ne_of_lt (Nat.lt_succ_self r))
  have h_init : initState env (conflictWorld p T0 T1 T2 a b r)
      = cwInit env p T0 T1 T2 a b r := by
    unfold initState conflictWorld collectLocalSnap collectRemoteSnap cwInit
    simp [hmd, hobs, hstat, hlist, aset, RemoteObj.toEntry]
  have h_step1 : uploadStep env (cwInit env p T0 T1 T2 a b r) p T1
      = (cwBackedUp env p T0 T1 T2 a b r,
         some (conflictName p (env.conflictTs p),
               env.statAfterWrite (conflictName p (env.conflictTs p)))) := by
    unfold uploadStep
    simp [alookup, classifyUpload, localMoved, h01, h02, hread, hne, hcpw, aset,
      cwInit, cwBackedUp]
  have h_step2 : uploadStep env (cwBackedUp env p T0 T1 T2 a b r)
        (conflictName p (env.conflictTs p))
        (env.statAfterWrite (conflictName p (env.conflictTs p)))
      = (cwUploaded env p T0 T1 T2 a b r, none) := by
    unfold uploadStep execUpload uploadDrive freshId
    simp [alookup, classifyUpload, hne, hcpr, hcpu, hcpl, hner, aset,
      RemoteObj.toEntry, Nat.max_zero, List.find?, cwInit, cwBackedUp, cwUploaded]
  have h_phase : uploadPhase env (conflictWorld p T0 T1 T2 a b r)
      = cwUploaded env p T0 T1 T2 a b r := by
    unfold uploadPhase
    rw [h_init]
    show uploadLoop env (0 + 1 + 1 + 1) [] [(p, T1)] (cwInit env p T0 T1 T2 a b r)
        = cwUploaded env p T0 T1 T2 a b r
    simp only [uploadLoop, h_step1]
    simp only [List.not_mem_nil, hne, or_self, if_false, akeys, List.map_nil,
      List.nil_append, false_or]
    simp only [uploadLoop, h_step2]
  have h_dstep1 : downloadStep env (checkpoint (cwUploaded env p T0 T1 T2 a b r)) p
        { id := r, name := p, isFolder := false, modifiedTime := T2, md5 := some b }
      = cwDownloaded env p T0 T1 T2 a b r := by
    unfold downloadStep
    simp [alookup, classifyDownload, hne, h02, h12, hdl, hw, aset, List.find?,
      checkpoint, cwInit, cwBackedUp, cwUploaded, cwDownloaded]
  have h_dstep2 : downloadStep env (cwDownloaded env p T0 T1 T2 a b r)
        (conflictName p (env.conflictTs p))
        { id := r + 1, name := conflictName p (env.conflictTs p), isFolder := false,
          modifiedTime := env.uploadMtime (conflictName p (env.conflictTs p)),
          md5 := some a }
      = cwDownloaded env p T0 T1 T2 a b r := by
    unfold downloadStep
    simp [alookup, classifyDownload, hne, cwInit, cwBackedUp, cwUploaded, cwDownloaded]
  have h_dpass : downloadPass env (checkpoint (cwUploaded env p T0 T1 T2 a b r))
      = cwDownloaded env p T0 T1 T2 a b r := by
    show ((checkpoint (cwUploaded env p T0 T1 T2 a b r)).remoteSnap).foldl
        (fun s pe => downloadStep env s pe.1 pe.2)
        (checkpoint (cwUploaded env p T0 T1 T2 a b r))
      = cwDownloaded env p T0 T1 T2 a b r
    have hk : (checkpoint (cwUploaded env p T0 T1 T2 a b r)).remoteSnap
        = [(p, { id := r, name := p, isFolder := false, modifiedTime := T2,
                 md5 := some b }),
           (conflictName p (env.conflictTs p),
             { id := r + 1, name := conflictName p (env.conflictTs p), isFolder := false,
               modifiedTime := env.uploadMtime (conflictName p (env.conflictTs p)),
               md5 := some a })] := rfl
    rw [hk]
    simp only [List.foldl]
    rw [h_dstep1, h_dstep2]
  have hp1 : (alookup p (checkpoint (cwDownloaded env p T0 T1 T2 a b r)).localSnap).isSome
      = true := by
    simp [checkpoint, cwDownloaded, cwUploaded, cwBackedUp, cwInit, alookup]
  have hp2 : (alookup (conflictName p (env.conflictTs p))
        (checkpoint (cwDownloaded env p T0 T1 T2 a b r)).localSnap).isSome = true := by
    simp [checkpoint, cwDownloaded, cwUploaded, cwBackedUp, cwInit, alookup, hne]
  have h_ldel : localDelPass env (checkpoint (cwDownloaded env p T0 T1 T2 a b r))
      = checkpoint (cwDownloaded env p T0 T1 T2 a b r) := by
    show (akeys (checkpoint (cwDownloaded env p T0 T1 T2 a b r)).fileMap).foldl
        (localDelStep env) (checkpoint (cwDownloaded env p T0 T1 T2 a b r))
      = checkpoint (cwDownloaded env p T0 T1 T2 a b r)
    have hk : akeys (checkpoint (cwDownloaded env p T0 T1 T2 a b r)).fileMap
        = [p, conflictName p (env.conflictTs p)] := rfl
    rw [hk]
    simp only [List.foldl]
    rw [localDelStep_of_insnap env _ p hp1,
      localDelStep_of_insnap env _ (conflictName p (env.conflictTs p)) hp2]
  have hq1 : (alookup p (checkpoint (checkpoint
        (cwDownloaded env p T0 T1 T2 a b r))).remoteSnap).isSome = true := by
    simp [checkpoint, cwDownloaded, cwUploaded, cwBackedUp, cwInit, alookup]
  have hq2 : (alookup (conflictName p (env.conflictTs p)) (checkpoint (checkpoint
        (cwDownloaded env p T0 T1 T2 a b r))).remoteSnap).isSome = true := by
    simp [checkpoint, cwDownloaded, cwUploaded, cwBackedUp, cwInit, alookup, hne]
  have h_rdel : remoteDelPass env (checkpoint (checkpoint
        (cwDownloaded env p T0 T1 T2 a b r)))
      = checkpoint (checkpoint (cwDownloaded env p T0 T1 T2 a b r)) := by
    show (akeys (checkpoint (checkpoint
          (cwDownloaded env p T0 T1 T2 a b r))).fileMap).foldl
        (remoteDelStep env)
        (checkpoint (checkpoint (cwDownloaded env p T0 T1 T2 a b r)))
      = checkpoint (checkpoint (cwDownloaded env p T0 T1 T2 a b r))
    have hk : akeys (checkpoint (checkpoint
          (cwDownloaded env p T0 T1 T2 a b r))).fileMap
        = [p, conflictName p (env.conflictTs p)] := rfl
    rw [hk]
    simp only [List.foldl]
    rw [remoteDelStep_of_insnap env _ p hq1,
      remoteDelStep_of_insnap env _ (conflictName p (env.conflictTs p)) hq2]
  have h_run : runSync env (conflictWorld p T0 T1 T2 a b r)
      = checkpoint (checkpoint (cwDownloaded env p T0 T1 T2 a b r)) := by
    unfold runSync
    rw [h_phase, h_dpass, h_ldel, h_rdel]
  rw [h_run]
  refine ⟨?_, ?_, ?_⟩
  · simp [checkpoint, cwDownloaded, cwUploaded, cwBackedUp, cwInit, alookup, hne]
  · simp [checkpoint, cwDownloaded, cwUploaded, cwBackedUp, cwInit, alookup]
  · simp [checkpoint, cwDownloaded, cwUploaded, cwBackedUp, cwInit, alookup]

/-- Witness for C1 (amended) at `p = "n.md"`, `T0 = 10`, `T1 = 20`,
`T2 = 30`: the backup holds the old local content 1 and `n.md` holds the
remote content 2 with `remoteMtime = 30`. -/
theorem C1_conflict_amended_witness :
    isMdPath "n.md" = true ∧
    alookup (conflictName "n.md" (envSplitStat.conflictTs "n.md"))
        (runSync envSplitStat (conflictWorld "n.md" 10 20 30 1 2 5)).localFS
      = some { mtime := envSplitStat.statAfterWrite
                 (conflictName "n.md" (envSplitStat.conflictTs "n.md")), content := 1 } ∧
    alookup "n.md" (runSync envSplitStat (conflictWorld "n.md" 10 20 30 1 2 5)).localFS
      = some { mtime := envSplitStat.statAfterWrite "n.md", content := 2 } ∧
    (alookup "n.md"
        (runSync envSplitStat (conflictWorld "n.md" 10 20 30 1 2 5)).fileMap).map
      (fun s => s.remoteMtime) = some (some 30) :=
  ⟨by decide,
   C1_conflict_amended envSplitStat "n.md" 10 20 30 1 2 5 (by decide) (by decide)
     (by decide) (by decide) (by decide) (by decide) (by decide) (by decide)
     (by decide) (by decide) (by decide) (by decide) (by decide) (by decide)⟩

end ObSync
